import Mathlib

/-!
Verification development for the error-bounding module of the
paris-traceroute fork (file bound.c of the MDA algorithm directory).

The module is embedded shallowly:

* probabilities (C long double / double) are modelled as exact rationals;
  every arithmetic operation of the dynamic program uses only the field
  operations, so the embedding performs the same computation exactly;
* size_t arithmetic is modelled on naturals, with the one place where the
  source can wrap around (the final "- 2" when storing a stopping point)
  modelled by explicit wrap-around subtraction st_sub;
* heap pointers that the source may set to NULL are modelled as Option;
  malloc and realloc outcomes are driven by an explicit oracle of Booleans,
  and the unspecified contents of freshly (re)allocated memory are supplied
  by explicit junk parameters;
* the unbounded row loop of the dynamic program is modelled with fuel:
  a result of none means the loop did not finish within the given fuel.
  The outer loops (over columns and over hypotheses) are bounded in the
  source and are modelled by structural recursion on their exact counts.
-/

/-- The modulus of size_t arithmetic (the source targets 64-bit size_t). -/
def SIZE_T : ℕ := 2 ^ 64

/-- Wrap-around subtraction of size_t, exact for operands below SIZE_T. -/
def st_sub (a b : ℕ) : ℕ := if b ≤ a then a - b else a + SIZE_T - b

/-- Macro HSTART: the first two hypotheses (0 or 1 interfaces) are ignored. -/
def HSTART : ℕ := 2

/-- Macro NUM_PROBES(i, j) = i + j - 1.  At every use site of the source
i is at least 1, so natural subtraction agrees with size_t arithmetic. -/
def NUM_PROBES (i j : ℕ) : ℕ := i + j - 1

/-- Macro PROBA_HOR(i, j): probability of a horizontal transition, j / i
computed after casting to long double. -/
def PROBA_HOR (i j : ℕ) : ℚ := (j : ℚ) / (i : ℚ)

/-- Macro PROBA_VER(i, j): probability of a vertical transition,
(i - j + 1) / i.  The subtraction i - j happens in size_t before the cast;
at every use site j < i holds, so natural subtraction agrees with it. -/
def PROBA_VER (i j : ℕ) : ℚ := ((i - j + 1 : ℕ) : ℚ) / (i : ℚ)

/-- bound_state_t: the two parallel scratch vectors.  The vector contents
are modelled as total functions from indices to rationals; the pointers
themselves can be NULL, hence the Option. -/
structure bound_state_t where
  first : Option (ℕ → ℚ)
  second : Option (ℕ → ℚ)

/-- bound_t: confidence, current maximal hypothesis and the four tables
(stopping points nk, significance levels ak, recorded failure
probabilities, scratch state).  Table pointers can be NULL. -/
structure bound_t where
  confidence : ℚ
  max_n : ℕ
  nk_table : Option (ℕ → ℕ)
  ak_table : Option (ℕ → ℚ)
  pr_failure : Option (ℕ → ℚ)
  state : Option bound_state_t

/-- Unspecified contents of freshly reallocated memory, one junk source per
buffer that reallocate_bound touches. -/
structure junk_t where
  jfirst : ℕ → ℚ
  jsecond : ℕ → ℚ
  jnk : ℕ → ℕ
  jak : ℕ → ℚ
  jpr : ℕ → ℚ

/-- All-zero junk (used where the contents of fresh memory are irrelevant). -/
def junk0 : junk_t := ⟨fun _ => 0, fun _ => 0, fun _ => 0, fun _ => 0, fun _ => 0⟩

/-- The allocation oracle that always succeeds. -/
def alloc_ok : ℕ → Bool := fun _ => true

/-- The local variables of bound_build that flow through its loops:
the row counter i, the persistent column variable j, the lower cutoff
jstart, the running cur_state, and the two scratch vectors. -/
structure iter_state where
  i : ℕ
  j : ℕ
  jstart : ℕ
  cur_state : ℚ
  first : ℕ → ℚ
  second : ℕ → ℚ

/-- node_confidence: the source computes 1 - pow(1 - graph_confidence,
1.0 / max_branch) in floating point.  The embedding is exact on the
arguments exercised in this development: for max_branch = 1 the exponent
is 1 and the result is exactly graph_confidence; for max_branch = 0 the
source divides by zero in IEEE arithmetic, giving the exponent +infinity,
pow of a base strictly between 0 and 1 to +infinity is 0, and the result
is 1 (no error path exists in the source for max_branch = 0).  For
max_branch at least 2 the value is an irrational real root, which no claim
exercises; the embedding returns 0 there as an explicit placeholder. -/
def node_confidence (graph_confidence : ℚ) (max_branch : ℕ) : ℚ :=
  if max_branch = 1 then graph_confidence
  else if max_branch = 0 then 1
  else 0

/-- bound_init_aks: precompute the significance levels.  Indices 0 and 1
are set to 0, index 2 to a1 = (1 - r) * confidence with r = 0.9, and each
index i with 3 <= i <= max_n to a1 * r ^ (i - 2).  Index 2 is written
unconditionally, exactly as in the source.  Entries beyond the loop range
keep their previous contents. -/
def bound_init_aks (confidence : ℚ) (max_n : ℕ) (ak_table : ℕ → ℚ) : ℕ → ℚ :=
  fun i =>
    if i = 0 then 0
    else if i = 1 then 0
    else if i = 2 then (1 - 9/10) * confidence
    else if i < max_n + 1 then ((1 - 9/10) * confidence) * (9/10) ^ (i - 2)
    else ak_table i

/-- The closed form of the significance level for hypothesis h. -/
def ak_formula (confidence : ℚ) (h : ℕ) : ℚ :=
  ((1 - 9/10) * confidence) * (9/10) ^ (h - 2)

/-- continue_condition: the inverse of the stopping condition.  Returns the
Boolean result together with the (possibly updated) pr_failure table,
because the source records the failure probability as a side effect of
the test that stops the row loop. -/
def continue_condition (jstart hypothesis : ℕ) (cur_state : ℚ)
    (ak_table : ℕ → ℚ) (pr_failure : ℕ → ℚ) : Bool × (ℕ → ℚ) :=
  if jstart = st_sub hypothesis 1 then
    if cur_state ≤ ak_table hypothesis then
      (false, Function.update pr_failure hypothesis cur_state)
    else (true, pr_failure)
  else (true, pr_failure)

/-- calculate: probability of one cell, the sum of the horizontal
contribution from first[j] and the vertical contribution from
second[j - 1]. -/
def calculate (first second : ℕ → ℚ) (hypothesis j : ℕ) : ℚ :=
  first j * PROBA_HOR hypothesis j + second (j - 1) * PROBA_VER hypothesis j

/-- swap: exchange the two scratch vectors (a pointer swap in the source). -/
def swap (s : iter_state) : iter_state :=
  { s with first := s.second, second := s.first }

/-- init_state: zero the first vector on indices below max_n, set
second[0] = 0 and second[1] = 1, and return the probability 1.0 that the
source assigns to cur_state.  No other entry of second is written. -/
def init_state (max_n : ℕ) (first second : ℕ → ℚ) : ℚ × (ℕ → ℚ) × (ℕ → ℚ) :=
  (1, fun j => if j < max_n then 0 else first j,
      Function.update (Function.update second 0 0) 1 1)

/-- The vertical loop of bound_build: for (j = jstart; j < hypothesis; ++j).
The fuel argument is the exact iteration count hypothesis - j of the
source loop (j increases by exactly 1 per iteration).  Each iteration
computes the cell, and either enters the absorbing regime (raising jstart
and zeroing the cell in both vectors) when the probe count matches the
stopping point already recorded for hypothesis j + 1, or stores the cell
into the second vector.  inner_step is one iteration of that loop. -/
def inner_step (nk : ℕ → ℕ) (hypothesis : ℕ) (s : iter_state) : iter_state :=
  if NUM_PROBES s.i s.j = nk (s.j + 1) then
    ⟨s.i, s.j + 1, s.j + 1, calculate s.first s.second hypothesis s.j,
     Function.update s.first s.j 0, Function.update s.second s.j 0⟩
  else
    ⟨s.i, s.j + 1, s.jstart, calculate s.first s.second hypothesis s.j,
     s.first, Function.update s.second s.j (calculate s.first s.second hypothesis s.j)⟩

def bound_build_inner (nk : ℕ → ℕ) (hypothesis : ℕ) : ℕ → iter_state → iter_state
  | 0, s => s
  | n + 1, s => bound_build_inner nk hypothesis n (inner_step nk hypothesis s)

/-- One iteration of the row loop body: run the vertical loop starting at
j = jstart, apply the awkward ternary that resets jstart to 1 on the very
first row, swap the vectors, and advance i. -/
def row_body (nk : ℕ → ℕ) (hypothesis : ℕ) (s : iter_state) : iter_state :=
  match bound_build_inner nk hypothesis (hypothesis - s.jstart)
      ⟨s.i, s.jstart, s.jstart, s.cur_state, s.first, s.second⟩ with
  | ⟨i, j, jstart, cur, first, second⟩ =>
    swap ⟨i + 1, j, if i = 1 then 1 else jstart, cur, first, second⟩

/-- The row loop of bound_build:
for (i = 1; continue_condition(jstart, hypothesis, cur_state, bound); ++i).
Fuel bounds the number of evaluations of the loop condition; none means
the loop did not stop within the fuel.  On a stop the current state and
the updated pr_failure table are returned. -/
def bound_build_rows (nk : ℕ → ℕ) (ak : ℕ → ℚ) (pr : ℕ → ℚ) (hypothesis : ℕ) :
    ℕ → iter_state → Option (iter_state × (ℕ → ℚ))
  | 0, _ => none
  | F + 1, s =>
    match continue_condition s.jstart hypothesis s.cur_state ak pr with
    | (false, pr') => some (s, pr')
    | (true, _) => bound_build_rows nk ak pr hypothesis F (row_body nk hypothesis s)

/-- The hypothesis loop of bound_build.  The first numeric argument is the
exact remaining iteration count max_n + 1 - hypothesis of the source loop.
Each iteration re-initialises the scratch state, runs the row loop with
the given fuel, and on a stop records
nk_table[hypothesis] = NUM_PROBES(i, j) - 2 (size_t subtraction) using the
values of i and j left over by the loops, exactly as the source does. -/
def bound_build_hyps (F : ℕ) (ak : ℕ → ℚ) (max_n : ℕ) :
    ℕ → ℕ → (ℕ → ℕ) → (ℕ → ℚ) → iter_state →
    Option ((ℕ → ℕ) × (ℕ → ℚ) × iter_state)
  | 0, _, nk, pr, s => some (nk, pr, s)
  | c + 1, hypothesis, nk, pr, s =>
    match init_state max_n s.first s.second with
    | (one, f1, s1) =>
    match bound_build_rows nk ak pr hypothesis F ⟨1, s.j, HSTART, one, f1, s1⟩ with
    | none => none
    | some (t, pr') =>
      bound_build_hyps F ak max_n c (hypothesis + 1)
        (Function.update nk hypothesis (st_sub (NUM_PROBES t.i t.j) 2)) pr' t

/-- realloc of one buffer: on success the first keep cells are preserved,
where keep is the minimum of the old and new sizes (realloc of NULL
behaves like malloc, all contents fresh), cells beyond keep hold
unspecified junk; on failure the result is NULL. -/
def realloc_block {α : Type} (ok : Bool) (old : Option (ℕ → α)) (keep : ℕ)
    (junk : ℕ → α) : Option (ℕ → α) :=
  if ok then some (fun i => if i < keep then (old.getD junk) i else junk i)
  else none

/-- reallocate_bound: grow the two scratch vectors (old length max_n) and
the three tables (old length max_n + 1).  The source assigns each realloc
result straight back into the struct field, so a failed realloc leaves a
NULL pointer behind while all earlier reallocations in the sequence remain
applied; the function then returns false without touching the remaining
fields. -/
def reallocate_bound (alloc : ℕ → Bool) (junk : junk_t) (bound : bound_t)
    (new_max_n : ℕ) : bound_t × Bool :=
  let st := bound.state.getD ⟨none, none⟩
  match realloc_block (alloc 0) st.first (min bound.max_n new_max_n) junk.jfirst with
  | none => ({ bound with state := some { st with first := none } }, false)
  | some f1 =>
  match realloc_block (alloc 1) st.second (min bound.max_n new_max_n) junk.jsecond with
  | none => ({ bound with state := some ⟨some f1, none⟩ }, false)
  | some f2 =>
  match realloc_block (alloc 2) bound.nk_table (min (bound.max_n + 1) (new_max_n + 1)) junk.jnk with
  | none => ({ bound with state := some ⟨some f1, some f2⟩, nk_table := none }, false)
  | some nk' =>
  match realloc_block (alloc 3) bound.ak_table (min (bound.max_n + 1) (new_max_n + 1)) junk.jak with
  | none =>
    ({ bound with
        state := some ⟨some f1, some f2⟩, nk_table := some nk',
        ak_table := none }, false)
  | some ak' =>
  match realloc_block (alloc 4) bound.pr_failure (min (bound.max_n + 1) (new_max_n + 1)) junk.jpr with
  | none =>
    ({ bound with
        state := some ⟨some f1, some f2⟩, nk_table := some nk',
        ak_table := some ak', pr_failure := none }, false)
  | some pr' =>
    ({ bound with
        state := some ⟨some f1, some f2⟩, nk_table := some nk',
        ak_table := some ak', pr_failure := some pr' }, true)

/-- The growth phase of bound_build: when end_ exceeds max_n, attempt the
reallocation; on success start the hypothesis loop at the old max_n + 1,
update max_n to end_ and recompute the significance levels; on failure
fall through with the (damaged) bound and start the loop at HSTART, as
the source does.  Returns the bound to build on and the first hypothesis. -/
def bound_build_grow (alloc : ℕ → Bool) (junk : junk_t) (bound : bound_t)
    (end_ : ℕ) : bound_t × ℕ :=
  if bound.max_n < end_ then
    match reallocate_bound alloc junk bound end_ with
    | (b', true) =>
      ({ b' with
          max_n := end_,
          ak_table := (b'.ak_table).map (bound_init_aks b'.confidence end_) },
       bound.max_n + 1)
    | (b', false) => (b', HSTART)
  else (bound, HSTART)

/-- bound_intact: all five heap buffers of the bound are live (non-NULL).
The hypothesis loop dereferences every one of them on each iteration it
performs, so running it with a NULL buffer is undefined behaviour. -/
def bound_intact (b : bound_t) : Bool :=
  b.nk_table.isSome && b.ak_table.isSome && b.pr_failure.isSome &&
  (match b.state with
   | some st => st.first.isSome && st.second.isSome
   | none => false)

/-- bound_build: after the NULL checks on the bound handle, its nk_table
and its state (on failure the source logs and returns, leaving the bound
unchanged), run the growth phase and then the hypothesis loop, and write
the results back through the table pointers.  A failed reallocation
leaves a NULL buffer behind, and the source then falls straight into the
hypothesis loop, which dereferences every buffer on its first iteration:
that execution has no defined result, recorded as none.  When the loop
range is empty the source touches no buffer and returns, leaving the
(possibly damaged) bound in place. -/
def bound_build (F : ℕ) (alloc : ℕ → Bool) (junk : junk_t) (bound : bound_t)
    (end_ : ℕ) : Option bound_t :=
  match bound.nk_table, bound.state with
  | some _, some _ =>
    let b1 := (bound_build_grow alloc junk bound end_).1
    let hyp0 := (bound_build_grow alloc junk bound end_).2
    if 1 ≤ b1.max_n + 1 - hyp0 ∧ bound_intact b1 = false then none
    else
    match bound_build_hyps F (b1.ak_table.getD (fun _ => 0)) b1.max_n
        (b1.max_n + 1 - hyp0) hyp0
        (b1.nk_table.getD (fun _ => 0)) (b1.pr_failure.getD (fun _ => 0))
        { i := 0, j := 0, jstart := 0, cur_state := 0,
          first := ((b1.state.getD ⟨none, none⟩).first.getD (fun _ => 0)),
          second := ((b1.state.getD ⟨none, none⟩).second.getD (fun _ => 0)) } with
    | none => none
    | some (nk', pr', t) =>
      some { b1 with
        nk_table := (b1.nk_table).map (fun _ => nk'),
        pr_failure := (b1.pr_failure).map (fun _ => pr'),
        state := (b1.state).map (fun st =>
          ⟨st.first.map (fun _ => t.first), st.second.map (fun _ => t.second)⟩) }
  | _, _ => some bound

/-- bound_create: seven allocations in source order (the bound struct, the
three calloc tables, the state struct and its two vectors); any failure
returns NULL through the goto chain.  calloc yields zeroed tables, the
two malloc vectors receive unspecified junk contents.  The source then
writes nk_table[0] = nk_table[1] = 0, precomputes the significance levels
and runs bound_build up to max_interfaces.  The outer Option is the fuel
of that initial build (none: the build did not finish); the inner Option
is the returned pointer (none: NULL).  One caveat: bound_init_aks writes
index 2 of ak_table unconditionally, and for max_interfaces below 2 the
calloc above only provided max_interfaces + 1 < 3 cells, so that write
overflows the heap buffer; such a call has no defined result and the
embedding returns none for it. -/
def bound_create (F : ℕ) (alloc : ℕ → Bool) (jfirst jsecond : ℕ → ℚ)
    (confidence : ℚ) (max_interfaces max_branch : ℕ) : Option (Option bound_t) :=
  if alloc 0 = false then some none
  else if alloc 1 = false then some none
  else if alloc 2 = false then some none
  else if alloc 3 = false then some none
  else if alloc 4 = false then some none
  else if alloc 5 = false then some none
  else if alloc 6 = false then some none
  else if max_interfaces < 2 then none
  else
    let conf := node_confidence confidence max_branch
    let b : bound_t :=
      { confidence := conf,
        max_n := max_interfaces,
        nk_table := some (Function.update (Function.update (fun _ => 0) 0 0) 1 0),
        ak_table := some (bound_init_aks conf max_interfaces (fun _ => 0)),
        pr_failure := some (fun _ => 0),
        state := some ⟨some jfirst, some jsecond⟩ }
    (bound_build F (fun _ => true) junk0 b max_interfaces).map some

/-- bound_get_nk: 0 for a NULL handle; for a live handle the entry
nk_table[k] when the table pointer is non-NULL and k <= max_n, else the
sentinel 0.  The source performs no writes, which the embedding reflects
by being a pure function of the handle. -/
def bound_get_nk (bound : Option bound_t) (k : ℕ) : ℕ :=
  match bound with
  | none => 0
  | some b =>
    match b.nk_table with
    | some nk => if k ≤ b.max_n then nk k else 0
    | none => 0

/-- Extract the bound from a finished, non-NULL bound_create result. -/
def the_bound (x : Option (Option bound_t)) : bound_t :=
  (x.getD none).getD ⟨0, 0, none, none, none, none⟩

/-- The running example table: bound_create with graph confidence 1/2,
max_interfaces 2, max_branch 1, all allocations succeeding.  Its build
stops hypothesis 2 at row 7, recording nk_table[2] = 6. -/
def bound_ex : bound_t :=
  the_bound (bound_create 12 alloc_ok (fun _ => 0) (fun _ => 0) (1/2) 2 1)


/-- Junk contents where freshly reallocated nk_table memory holds the value
3 in every cell (one possible uninitialized content). -/
def junk3 : junk_t := ⟨fun _ => 0, fun _ => 0, fun _ => 3, fun _ => 0, fun _ => 0⟩

/-- An allocation oracle whose third allocation (the nk_table realloc in
reallocate_bound) fails. -/
def alloc_fail_nk : ℕ → Bool := fun i => if i = 2 then false else true

/-- A second example table: bound_create with graph confidence 1/2,
max_interfaces 3, max_branch 1, all allocations succeeding. -/
def bound_ex3 : bound_t :=
  the_bound (bound_create 30 alloc_ok (fun _ => 0) (fun _ => 0) (1/2) 3 1)

/-- Program states of the module: everything bound_create returns, closed
under arbitrary terminating bound_build calls (any fuel, any allocation
oracle, any junk contents of fresh memory, any requested end). -/
inductive reachable : bound_t → Prop
  | create (F : ℕ) (alloc : ℕ → Bool) (jf js : ℕ → ℚ) (g : ℚ) (mi mb : ℕ)
      (b : bound_t) :
      bound_create F alloc jf js g mi mb = some (some b) → reachable b
  | build (F : ℕ) (alloc : ℕ → Bool) (junk : junk_t) (e : ℕ) (b b' : bound_t) :
      reachable b → bound_build F alloc junk b e = some b' → reachable b'

/-- All entries below HSTART of the stopping-point table are zero (the
dummy hypotheses 0 and 1 are never written by the build loop). -/
def nk01_spec (b : bound_t) : Prop :=
  ∀ f, b.nk_table = some f → f 0 = 0 ∧ f 1 = 0

/-- The significance-level table holds zeros at the dummy entries and the
closed-form geometric values on the populated range. -/
def ak_spec (b : bound_t) : Prop :=
  ∀ g, b.ak_table = some g →
    g 0 = 0 ∧ g 1 = 0 ∧
    ∀ h, 2 ≤ h → h ≤ b.max_n → g h = ak_formula b.confidence h

/-- Every recorded failure probability on the populated range is at most
the corresponding significance level. -/
def pr_spec (b : bound_t) : Prop :=
  ∀ g p, b.ak_table = some g → b.pr_failure = some p →
    ∀ h, 2 ≤ h → h ≤ b.max_n → p h ≤ g h

/-- The stopping-point table grows strictly from one populated hypothesis
to the next (from hypothesis 3 on). -/
def nk_mono_spec (b : bound_t) : Prop :=
  ∀ f, b.nk_table = some f →
    ∀ h, 3 ≤ h → h ≤ b.max_n → f (h - 1) + 1 ≤ f h

/-- The state invariant maintained by construction and growth.  The
monotonicity clause is conditional on the per-node confidence lying in
the open unit interval, the validity range the specification demands. -/
def bound_inv (b : bound_t) : Prop :=
  2 ≤ b.max_n ∧ bound_intact b = true ∧ nk01_spec b ∧ ak_spec b ∧ pr_spec b ∧
  (0 < b.confidence → b.confidence < 1 → nk_mono_spec b)

/-! Basic facts about the embedded loops. -/

lemma st_sub_of_le {a b : ℕ} (h : b ≤ a) : st_sub a b = a - b := if_pos h

lemma continue_condition_of_cont {js h : ℕ} {cur : ℚ} {ak pr : ℕ → ℚ}
    (hne : ¬ (js = st_sub h 1 ∧ cur ≤ ak h)) :
    continue_condition js h cur ak pr = (true, pr) := by
  unfold continue_condition
  rcases Decidable.em (js = st_sub h 1) with h1 | h1
  · rw [if_pos h1, if_neg (fun hc => hne ⟨h1, hc⟩)]
  · rw [if_neg h1]

lemma continue_condition_of_stop {js h : ℕ} {cur : ℚ} {ak pr : ℕ → ℚ}
    (h1 : js = st_sub h 1) (h2 : cur ≤ ak h) :
    continue_condition js h cur ak pr = (false, Function.update pr h cur) := by
  unfold continue_condition
  rw [if_pos h1, if_pos h2]

lemma rows_zero {nk : ℕ → ℕ} {ak pr : ℕ → ℚ} {h : ℕ} {s : iter_state} :
    bound_build_rows nk ak pr h 0 s = none := rfl

lemma rows_succ_of_cont {nk : ℕ → ℕ} {ak pr : ℕ → ℚ} {h F : ℕ} {s : iter_state}
    (hc : ¬ (s.jstart = st_sub h 1 ∧ s.cur_state ≤ ak h)) :
    bound_build_rows nk ak pr h (F + 1) s =
    bound_build_rows nk ak pr h F (row_body nk h s) := by
  simp only [bound_build_rows]
  rw [continue_condition_of_cont hc]

lemma rows_succ_of_stop {nk : ℕ → ℕ} {ak pr : ℕ → ℚ} {h F : ℕ} {s : iter_state}
    (h1 : s.jstart = st_sub h 1) (h2 : s.cur_state ≤ ak h) :
    bound_build_rows nk ak pr h (F + 1) s =
    some (s, Function.update pr h s.cur_state) := by
  simp only [bound_build_rows]
  rw [continue_condition_of_stop h1 h2]

/-- Whenever the row loop stops, the stopping state satisfies the stopping
condition and the returned failure table is the input table updated at the
current hypothesis with the stopping probability mass. -/
lemma rows_some_spec {nk : ℕ → ℕ} {ak pr : ℕ → ℚ} {h : ℕ} : ∀ {F : ℕ} {s t : iter_state}
    {pr' : ℕ → ℚ}, bound_build_rows nk ak pr h F s = some (t, pr') →
    t.jstart = st_sub h 1 ∧ t.cur_state ≤ ak h ∧
    pr' = Function.update pr h t.cur_state := by
  intro F
  induction F with
  | zero => intro s t pr' hE; exact absurd hE (by simp [rows_zero])
  | succ F ih =>
    intro s t pr' hE
    by_cases hstop : s.jstart = st_sub h 1 ∧ s.cur_state ≤ ak h
    · rw [rows_succ_of_stop hstop.1 hstop.2] at hE
      simp only [Option.some.injEq, Prod.mk.injEq] at hE
      obtain ⟨rfl, rfl⟩ := hE
      exact ⟨hstop.1, hstop.2, rfl⟩
    · rw [rows_succ_of_cont hstop] at hE
      exact ih hE

lemma row_body_of_jstart_ge {nk : ℕ → ℕ} {h : ℕ} {s : iter_state} (h1 : h ≤ s.jstart) :
    row_body nk h s =
    swap ⟨s.i + 1, s.jstart, if s.i = 1 then 1 else s.jstart,
      s.cur_state, s.first, s.second⟩ := by
  unfold row_body
  rw [Nat.sub_eq_zero_of_le h1]
  rfl

/-- Once the cutoff jstart has reached the hypothesis itself on a row
beyond the first, the vertical loop never runs again, jstart never changes
again, and the stopping condition (which demands jstart = hypothesis - 1)
can never hold: the row loop runs forever. -/
lemma rows_stuck {nk : ℕ → ℕ} {ak pr : ℕ → ℚ} {h : ℕ} (hh : 1 ≤ h) :
    ∀ (F : ℕ) {s : iter_state}, h ≤ s.jstart → 2 ≤ s.i →
    bound_build_rows nk ak pr h F s = none := by
  intro F
  induction F with
  | zero => intro s _ _; rfl
  | succ F ih =>
    intro s hjs hi
    have hne : ¬ (s.jstart = st_sub h 1 ∧ s.cur_state ≤ ak h) := by
      rintro ⟨he, -⟩
      rw [st_sub_of_le hh] at he
      omega
    rw [rows_succ_of_cont hne, row_body_of_jstart_ge hjs]
    have hi1 : ¬ (s.i = 1) := by omega
    apply ih <;> simp [swap, hi1]
    · exact hjs
    · omega

lemma inner_step_i {nk : ℕ → ℕ} {h : ℕ} {s : iter_state} :
    (inner_step nk h s).i = s.i := by
  unfold inner_step
  split <;> rfl

lemma inner_step_j {nk : ℕ → ℕ} {h : ℕ} {s : iter_state} :
    (inner_step nk h s).j = s.j + 1 := by
  unfold inner_step
  split <;> rfl

lemma inner_frame {nk : ℕ → ℕ} {h : ℕ} : ∀ (n : ℕ) (s : iter_state),
    (bound_build_inner nk h n s).i = s.i ∧
    (bound_build_inner nk h n s).j = s.j + n := by
  intro n
  induction n with
  | zero => intro s; exact ⟨rfl, rfl⟩
  | succ n ih =>
    intro s
    obtain ⟨h1, h2⟩ := ih (inner_step nk h s)
    simp only [bound_build_inner]
    refine ⟨?_, ?_⟩
    · rw [h1, inner_step_i]
    · rw [h2, inner_step_j]
      omega

/-- Within one run of the vertical loop the cutoff jstart never decreases
(given the invariant jstart <= j + 1, which holds at the loop entry where
j is initialised to jstart), and the invariant is maintained. -/
lemma inner_jstart_mono {nk : ℕ → ℕ} {h : ℕ} : ∀ (n : ℕ) {s : iter_state},
    s.jstart ≤ s.j + 1 →
    s.jstart ≤ (bound_build_inner nk h n s).jstart ∧
    (bound_build_inner nk h n s).jstart ≤ (bound_build_inner nk h n s).j + 1 := by
  intro n
  induction n with
  | zero => intro s hs; exact ⟨le_refl _, hs⟩
  | succ n ih =>
    intro s hs
    simp only [bound_build_inner]
    by_cases habs : NUM_PROBES s.i s.j = nk (s.j + 1)
    · have h1 : (inner_step nk h s).jstart = s.j + 1 := by
        unfold inner_step
        rw [if_pos habs]
      have h2 : (inner_step nk h s).j = s.j + 1 := inner_step_j
      obtain ⟨m1, m2⟩ := ih (s := inner_step nk h s) (by rw [h1, h2]; omega)
      exact ⟨le_trans (by omega : s.jstart ≤ s.j + 1) (h1 ▸ m1), m2⟩
    · have h1 : (inner_step nk h s).jstart = s.jstart := by
        unfold inner_step
        rw [if_neg habs]
      have h2 : (inner_step nk h s).j = s.j + 1 := inner_step_j
      obtain ⟨m1, m2⟩ := ih (s := inner_step nk h s) (by rw [h1, h2]; omega)
      exact ⟨h1 ▸ m1, m2⟩

/-- The cutoff after one run of the vertical loop: either it is unchanged,
or the loop absorbed at some visited column jc, in which case the cutoff
is jc + 1 and the probe count at column jc matched the recorded stopping
point of hypothesis jc + 1. -/
lemma inner_jstart_cases {nk : ℕ → ℕ} {h : ℕ} : ∀ (n : ℕ) {s : iter_state},
    (bound_build_inner nk h n s).jstart = s.jstart ∨
    (∃ jc, s.j ≤ jc ∧ jc < s.j + n ∧
      (bound_build_inner nk h n s).jstart = jc + 1 ∧
      NUM_PROBES s.i jc = nk (jc + 1)) := by
  intro n
  induction n with
  | zero => intro s; exact Or.inl rfl
  | succ n ih =>
    intro s
    simp only [bound_build_inner]
    by_cases habs : NUM_PROBES s.i s.j = nk (s.j + 1)
    · have h1 : (inner_step nk h s).jstart = s.j + 1 := by
        unfold inner_step
        rw [if_pos habs]
      rcases ih (s := inner_step nk h s) with hc | ⟨jc, hc1, hc2, hc3, hc4⟩
      · exact Or.inr ⟨s.j, le_refl _, by omega, by rw [hc, h1], habs⟩
      · refine Or.inr ⟨jc, ?_, ?_, hc3, ?_⟩
        · have := @inner_step_j nk h s
          omega
        · have := @inner_step_j nk h s
          omega
        · rw [← @inner_step_i nk h s]
          exact hc4
    · have h1 : (inner_step nk h s).jstart = s.jstart := by
        unfold inner_step
        rw [if_neg habs]
      rcases ih (s := inner_step nk h s) with hc | ⟨jc, hc1, hc2, hc3, hc4⟩
      · exact Or.inl (by rw [hc, h1])
      · refine Or.inr ⟨jc, ?_, ?_, hc3, ?_⟩
        · have := @inner_step_j nk h s
          omega
        · have := @inner_step_j nk h s
          omega
        · rw [← @inner_step_i nk h s]
          exact hc4

lemma row_body_eq (nk : ℕ → ℕ) (h : ℕ) (s : iter_state) :
    row_body nk h s =
    (fun t : iter_state => swap ⟨t.i + 1, t.j, if t.i = 1 then 1 else t.jstart,
        t.cur_state, t.first, t.second⟩)
      (bound_build_inner nk h (h - s.jstart)
        ⟨s.i, s.jstart, s.jstart, s.cur_state, s.first, s.second⟩) := by
  unfold row_body
  generalize bound_build_inner nk h (h - s.jstart)
    ⟨s.i, s.jstart, s.jstart, s.cur_state, s.first, s.second⟩ = t
  cases t
  rfl

lemma row_body_i (nk : ℕ → ℕ) (h : ℕ) (s : iter_state) :
    (row_body nk h s).i = s.i + 1 := by
  rw [row_body_eq]
  have := (@inner_frame nk h (h - s.jstart)
    ⟨s.i, s.jstart, s.jstart, s.cur_state, s.first, s.second⟩).1
  simp only [swap]
  exact congrArg (· + 1) this

lemma row_body_jstart_pos {nk : ℕ → ℕ} {h : ℕ} {s : iter_state}
    (h1 : 1 ≤ s.jstart) : 1 ≤ (row_body nk h s).jstart := by
  rw [row_body_eq]
  simp only [swap]
  split
  · exact le_refl 1
  · rcases @inner_jstart_cases nk h (h - s.jstart)
      ⟨s.i, s.jstart, s.jstart, s.cur_state, s.first, s.second⟩ with hc | ⟨jc, _, _, hc3, _⟩
    · rw [hc]; exact h1
    · rw [hc3]; omega

/-- For hypothesis 1 the stopping condition requires jstart = 0, but jstart
never drops below 1, so the row loop never stops. -/
lemma rows_h1 {nk : ℕ → ℕ} {ak pr : ℕ → ℚ} : ∀ (F : ℕ) {s : iter_state},
    1 ≤ s.jstart → bound_build_rows nk ak pr 1 F s = none := by
  intro F
  induction F with
  | zero => intro s _; rfl
  | succ F ih =>
    intro s h1
    have hne : ¬ (s.jstart = st_sub 1 1 ∧ s.cur_state ≤ ak 1) := by
      rintro ⟨he, -⟩
      rw [st_sub_of_le (le_refl 1)] at he
      omega
    rw [rows_succ_of_cont hne]
    exact ih (row_body_jstart_pos h1)

/-- The structural heart of the monotonicity argument.  If the row loop is
past its first row and the invariant holds that whenever the cutoff jstart
equals hypothesis - 1 the row index certifies that the loop already passed
the absorption row of hypothesis - 1 (and the column variable equals the
hypothesis), then a stop yields a recorded stopping point strictly above
the one recorded for hypothesis - 1. -/
lemma rows_some_nk_ge {nk : ℕ → ℕ} {ak pr : ℕ → ℚ} {h : ℕ} (h3 : 3 ≤ h) :
    ∀ {F : ℕ} {s t : iter_state} {pr' : ℕ → ℚ},
    2 ≤ s.i →
    (s.jstart = h - 1 → nk (h - 1) + 4 ≤ s.i + h ∧ s.j = h) →
    bound_build_rows nk ak pr h F s = some (t, pr') →
    nk (h - 1) + 1 ≤ st_sub (NUM_PROBES t.i t.j) 2 := by
  intro F
  induction F with
  | zero => intro s t pr' _ _ hE; exact absurd hE (by simp [rows_zero])
  | succ F ih =>
    intro s t pr' hi hQ hE
    by_cases hstop : s.jstart = st_sub h 1 ∧ s.cur_state ≤ ak h
    · rw [rows_succ_of_stop hstop.1 hstop.2] at hE
      simp only [Option.some.injEq, Prod.mk.injEq] at hE
      obtain ⟨rfl, -⟩ := hE
      obtain ⟨hge, hj⟩ := hQ (by rw [hstop.1, st_sub_of_le (by omega : 1 ≤ h)])
      rw [hj]
      unfold NUM_PROBES
      rw [st_sub_of_le (by omega : 2 ≤ s.i + h - 1)]
      omega
    · rw [rows_succ_of_cont hstop] at hE
      refine ih ?_ ?_ hE
      · rw [row_body_i]; omega
      · intro hjs
        rw [row_body_eq] at hjs
        simp only [swap] at hjs
        have hTi : (bound_build_inner nk h (h - s.jstart)
            ⟨s.i, s.jstart, s.jstart, s.cur_state, s.first, s.second⟩).i = s.i :=
          (inner_frame _ _).1
        have hTj : (bound_build_inner nk h (h - s.jstart)
            ⟨s.i, s.jstart, s.jstart, s.cur_state, s.first, s.second⟩).j
            = s.jstart + (h - s.jstart) :=
          (inner_frame _ _).2
        rw [hTi, if_neg (by omega : ¬ s.i = 1)] at hjs
        constructor
        · rcases @inner_jstart_cases nk h (h - s.jstart)
            ⟨s.i, s.jstart, s.jstart, s.cur_state, s.first, s.second⟩ with
            hc | ⟨jc, hc1, hc2, hc3, hc4⟩
          · rw [hc] at hjs
            obtain ⟨hge, -⟩ := hQ hjs
            rw [row_body_i]
            omega
          · rw [hc3] at hjs
            have hjc : jc = h - 2 := by omega
            unfold NUM_PROBES at hc4
            rw [hjc] at hc4
            have : s.i + (h - 2) - 1 = nk (h - 1) := by
              rw [hc4]
              congr 1
              omega
            rw [row_body_i]
            omega
        · rw [row_body_eq]
          simp only [swap]
          rw [hTj]
          have hmono := (@inner_jstart_mono nk h (h - s.jstart)
            ⟨s.i, s.jstart, s.jstart, s.cur_state, s.first, s.second⟩ (by simp)).1
          simp only at hmono
          omega

/-- Starting from the per-hypothesis initial state (row 1, jstart = HSTART,
cur_state = 1), a stop of the row loop for hypothesis h at least 3 records
a stopping point strictly above the one recorded for hypothesis h - 1,
provided the significance level of h is below 1 (so that the loop cannot
stop on its very first row). -/
lemma rows_init_nk_ge {nk : ℕ → ℕ} {ak pr : ℕ → ℚ} {h : ℕ} (h3 : 3 ≤ h)
    (hak : ak h < 1) : ∀ {F : ℕ} {j0 : ℕ} {f1 s1 : ℕ → ℚ} {t : iter_state} {pr' : ℕ → ℚ},
    bound_build_rows nk ak pr h F ⟨1, j0, HSTART, 1, f1, s1⟩ = some (t, pr') →
    nk (h - 1) + 1 ≤ st_sub (NUM_PROBES t.i t.j) 2 := by
  intro F j0 f1 s1 t pr' hE
  match F with
  | 0 => exact absurd hE (by simp [rows_zero])
  | F + 1 =>
    have hne : ¬ ((⟨1, j0, HSTART, 1, f1, s1⟩ : iter_state).jstart = st_sub h 1 ∧
        (⟨1, j0, HSTART, 1, f1, s1⟩ : iter_state).cur_state ≤ ak h) := by
      rintro ⟨he, hle⟩
      simp only at he hle
      exact absurd (lt_of_le_of_lt hle hak) (by norm_num)
    rw [rows_succ_of_cont hne] at hE
    refine rows_some_nk_ge h3 ?_ ?_ hE
    · rw [row_body_i]
    · intro hjs
      rw [row_body_eq] at hjs
      simp only [swap] at hjs
      have hTi : (bound_build_inner nk h
          (h - (⟨1, j0, HSTART, 1, f1, s1⟩ : iter_state).jstart)
          ⟨1, HSTART, HSTART, 1, f1, s1⟩).i = 1 :=
        (inner_frame _ _).1
      rw [if_pos] at hjs
      · exact absurd hjs.symm (by omega)
      · exact hTi

lemma hyps_zero {F : ℕ} {ak : ℕ → ℚ} {max_n h0 : ℕ} {nk : ℕ → ℕ} {pr : ℕ → ℚ}
    {s : iter_state} :
    bound_build_hyps F ak max_n 0 h0 nk pr s = some (nk, pr, s) := rfl

lemma hyps_succ {F : ℕ} {ak : ℕ → ℚ} {max_n c h0 : ℕ} {nk : ℕ → ℕ} {pr : ℕ → ℚ}
    {s : iter_state} :
    bound_build_hyps F ak max_n (c + 1) h0 nk pr s =
    match bound_build_rows nk ak pr h0 F
        ⟨1, s.j, HSTART, 1, (fun j => if j < max_n then 0 else s.first j),
          Function.update (Function.update s.second 0 0) 1 1⟩ with
    | none => none
    | some (t, pr') =>
      bound_build_hyps F ak max_n c (h0 + 1)
        (Function.update nk h0 (st_sub (NUM_PROBES t.i t.j) 2)) pr' t := rfl

/-- The hypothesis loop only writes table entries at the hypotheses it
actually processes. -/
lemma hyps_frame {F : ℕ} {ak : ℕ → ℚ} {max_n : ℕ} :
    ∀ {count h0 : ℕ} {nk : ℕ → ℕ} {pr : ℕ → ℚ} {s : iter_state}
    {nk' : ℕ → ℕ} {pr' : ℕ → ℚ} {t : iter_state},
    bound_build_hyps F ak max_n count h0 nk pr s = some (nk', pr', t) →
    ∀ x, (x < h0 ∨ h0 + count ≤ x) → nk' x = nk x ∧ pr' x = pr x := by
  intro count
  induction count with
  | zero =>
    intro h0 nk pr s nk' pr' t hE x _
    rw [hyps_zero] at hE
    simp only [Option.some.injEq, Prod.mk.injEq] at hE
    obtain ⟨rfl, rfl, -⟩ := hE
    exact ⟨rfl, rfl⟩
  | succ c ih =>
    intro h0 nk pr s nk' pr' t hE x hx
    rw [hyps_succ] at hE
    rcases hR : bound_build_rows nk ak pr h0 F
        ⟨1, s.j, HSTART, 1, (fun j => if j < max_n then 0 else s.first j),
          Function.update (Function.update s.second 0 0) 1 1⟩ with - | ⟨t1, pr1⟩
    · rw [hR] at hE; exact absurd hE (by simp)
    · rw [hR] at hE
      have hx' : x < h0 + 1 ∨ (h0 + 1) + c ≤ x := by omega
      obtain ⟨e1, e2⟩ := ih hE x hx'
      have hxne : ¬ (x = h0) := by omega
      obtain ⟨-, -, hpr1⟩ := rows_some_spec hR
      refine ⟨?_, ?_⟩
      · rw [e1, Function.update_apply, if_neg hxne]
      · rw [e2, hpr1, Function.update_apply, if_neg hxne]

/-- Every hypothesis processed by the hypothesis loop ends with a recorded
failure probability at most its significance level. -/
lemma hyps_pr_le {F : ℕ} {ak : ℕ → ℚ} {max_n : ℕ} :
    ∀ {count h0 : ℕ} {nk : ℕ → ℕ} {pr : ℕ → ℚ} {s : iter_state}
    {nk' : ℕ → ℕ} {pr' : ℕ → ℚ} {t : iter_state},
    bound_build_hyps F ak max_n count h0 nk pr s = some (nk', pr', t) →
    ∀ x, h0 ≤ x → x < h0 + count → pr' x ≤ ak x := by
  intro count
  induction count with
  | zero => intro h0 nk pr s nk' pr' t _ x _ hx2; omega
  | succ c ih =>
    intro h0 nk pr s nk' pr' t hE x hx1 hx2
    rw [hyps_succ] at hE
    rcases hR : bound_build_rows nk ak pr h0 F
        ⟨1, s.j, HSTART, 1, (fun j => if j < max_n then 0 else s.first j),
          Function.update (Function.update s.second 0 0) 1 1⟩ with - | ⟨t1, pr1⟩
    · rw [hR] at hE; exact absurd hE (by simp)
    · rw [hR] at hE
      obtain ⟨-, hle, hpr1⟩ := rows_some_spec hR
      by_cases hx : x = h0
      · subst hx
        have hfx := (hyps_frame hE x (by omega)).2
        rw [hfx, hpr1, Function.update_apply, if_pos rfl]
        exact hle
      · exact ih hE x (by omega) (by omega)

/-- Chain growth of the stopping points along the processed range: with
significance levels below 1, each processed hypothesis x at least 3 gets a
stopping point strictly larger than the entry for x - 1 in the final
table. -/
lemma hyps_nk_chain {F : ℕ} {ak : ℕ → ℚ} {max_n : ℕ} :
    ∀ {count h0 : ℕ} {nk : ℕ → ℕ} {pr : ℕ → ℚ} {s : iter_state}
    {nk' : ℕ → ℕ} {pr' : ℕ → ℚ} {t : iter_state},
    2 ≤ h0 →
    (∀ x, h0 ≤ x → x < h0 + count → 3 ≤ x → ak x < 1) →
    bound_build_hyps F ak max_n count h0 nk pr s = some (nk', pr', t) →
    ∀ x, h0 ≤ x → x < h0 + count → 3 ≤ x → nk' (x - 1) + 1 ≤ nk' x := by
  intro count
  induction count with
  | zero => intro h0 nk pr s nk' pr' t _ _ _ x _ hx2; omega
  | succ c ih =>
    intro h0 nk pr s nk' pr' t h2 hak hE x hx1 hx2 hx3
    rw [hyps_succ] at hE
    rcases hR : bound_build_rows nk ak pr h0 F
        ⟨1, s.j, HSTART, 1, (fun j => if j < max_n then 0 else s.first j),
          Function.update (Function.update s.second 0 0) 1 1⟩ with - | ⟨t1, pr1⟩
    · rw [hR] at hE; exact absurd hE (by simp)
    · rw [hR] at hE
      by_cases hx : x = h0
      · subst hx
        have hnk'x : nk' x = st_sub (NUM_PROBES t1.i t1.j) 2 := by
          have := (hyps_frame hE x (by omega)).1
          rw [this, Function.update_apply, if_pos rfl]
        have hnk'x1 : nk' (x - 1) = nk (x - 1) := by
          have := (hyps_frame hE (x - 1) (by omega)).1
          rw [this, Function.update_apply, if_neg (by omega)]
        have hge := rows_init_nk_ge hx3 (hak x hx1 hx2 hx3) hR
        rw [hnk'x, hnk'x1]
        omega
      · exact ih (by omega) (fun y hy1 hy2 hy3 => hak y (by omega) (by omega) hy3)
          hE x (by omega) (by omega) hx3

lemma bound_init_aks_zero0 {c : ℚ} {m : ℕ} {old : ℕ → ℚ} :
    bound_init_aks c m old 0 = 0 := rfl

lemma bound_init_aks_zero1 {c : ℚ} {m : ℕ} {old : ℕ → ℚ} :
    bound_init_aks c m old 1 = 0 := rfl

lemma bound_init_aks_eq_formula {c : ℚ} {m : ℕ} {old : ℕ → ℚ} {h : ℕ}
    (h2 : 2 ≤ h) (hm : h ≤ m) :
    bound_init_aks c m old h = ak_formula c h := by
  unfold bound_init_aks ak_formula
  rcases eq_or_lt_of_le h2 with he | hgt
  · rw [if_neg (by omega), if_neg (by omega), if_pos he.symm, ← he]
    norm_num
  · rw [if_neg (by omega), if_neg (by omega), if_neg (by omega), if_pos (by omega)]

lemma ak_formula_lt_one {c : ℚ} (hc0 : 0 < c) (hc1 : c < 1) (h : ℕ) :
    ak_formula c h < 1 := by
  unfold ak_formula
  have hp0 : (0 : ℚ) ≤ (9/10) ^ (h - 2) := by positivity
  have hp1 : ((9 : ℚ)/10) ^ (h - 2) ≤ 1 :=
    pow_le_one₀ (by norm_num) (by norm_num)
  nlinarith

lemma ak_formula_nonneg {c : ℚ} (hc0 : 0 ≤ c) (h : ℕ) : 0 ≤ ak_formula c h := by
  unfold ak_formula
  positivity

/-- Field-level description of reallocate_bound, covering both the success
and every failure outcome: max_n and confidence are untouched, and each of
the three tables is either untouched, NULL (its own reallocation failed),
or reallocated with its old contents preserved on the kept prefix. -/
lemma reallocate_bound_fields (alloc : ℕ → Bool) (junk : junk_t) (b : bound_t) (e : ℕ) :
    (reallocate_bound alloc junk b e).1.max_n = b.max_n ∧
    (reallocate_bound alloc junk b e).1.confidence = b.confidence ∧
    ((reallocate_bound alloc junk b e).1.nk_table = b.nk_table ∨
     (reallocate_bound alloc junk b e).1.nk_table = none ∨
     (∃ nk2, (reallocate_bound alloc junk b e).1.nk_table = some nk2 ∧
       ∀ f, b.nk_table = some f → ∀ i, i < b.max_n + 1 → i < e + 1 → nk2 i = f i)) ∧
    ((reallocate_bound alloc junk b e).1.ak_table = b.ak_table ∨
     (reallocate_bound alloc junk b e).1.ak_table = none ∨
     (∃ ak2, (reallocate_bound alloc junk b e).1.ak_table = some ak2 ∧
       ∀ g, b.ak_table = some g → ∀ i, i < b.max_n + 1 → i < e + 1 → ak2 i = g i)) ∧
    ((reallocate_bound alloc junk b e).1.pr_failure = b.pr_failure ∨
     (reallocate_bound alloc junk b e).1.pr_failure = none ∨
     (∃ pr2, (reallocate_bound alloc junk b e).1.pr_failure = some pr2 ∧
       ∀ p, b.pr_failure = some p → ∀ i, i < b.max_n + 1 → i < e + 1 → pr2 i = p i)) := by
  unfold reallocate_bound
  rcases h0 : alloc 0 with - | - <;> rcases h1 : alloc 1 with - | - <;>
    rcases h2 : alloc 2 with - | - <;> rcases h3 : alloc 3 with - | - <;>
    rcases h4 : alloc 4 with - | - <;>
    simp only [realloc_block, if_true, if_false, Bool.false_eq_true, ite_false, ite_true] <;>
    refine ⟨by first | rfl | trivial, by first | rfl | trivial, ?_, ?_, ?_⟩ <;>
    first
      | exact Or.inl (by first | rfl | trivial)
      | exact Or.inr (Or.inl (by first | rfl | trivial))
      | (refine Or.inr (Or.inr ⟨_, by first | rfl | trivial, ?_⟩)
         rintro f hf i hi1 hi2
         simp only [hf, Option.getD_some]
         rw [if_pos (by omega : i < min (b.max_n + 1) (e + 1))])

/-- reallocate_bound reports success exactly when the resulting bound is
intact: every failure branch stores a NULL into the field whose
reallocation failed, and the success branch fills all five buffers. -/
lemma reallocate_bound_intact (alloc : ℕ → Bool) (junk : junk_t) (b : bound_t) (e : ℕ) :
    bound_intact (reallocate_bound alloc junk b e).1 = (reallocate_bound alloc junk b e).2 := by
  unfold reallocate_bound
  rcases h0 : alloc 0 with - | - <;> rcases h1 : alloc 1 with - | - <;>
    rcases h2 : alloc 2 with - | - <;> rcases h3 : alloc 3 with - | - <;>
    rcases h4 : alloc 4 with - | - <;>
    simp only [realloc_block, if_true, if_false, Bool.false_eq_true, ite_false, ite_true] <;>
    simp only [bound_intact, Option.isSome_some, Option.isSome_none,
      Bool.false_and, Bool.and_false, Bool.true_and, Bool.and_true]


/-- Unpacking form of bound_intact. -/
lemma bound_intact_iff {b : bound_t} :
    bound_intact b = true ↔
    (∃ f, b.nk_table = some f) ∧ (∃ g, b.ak_table = some g) ∧
    (∃ p, b.pr_failure = some p) ∧
    (∃ v1 v2, b.state = some ⟨some v1, some v2⟩) := by
  rcases b with ⟨c, m, nk, ak, pr, st⟩
  rcases nk with - | f <;> rcases ak with - | g <;> rcases pr with - | p <;>
    rcases st with - | ⟨w1, w2⟩ <;>
    first
      | (rcases w1 with - | w1 <;> rcases w2 with - | w2 <;>
          simp [bound_intact, bound_state_t.mk.injEq])
      | simp [bound_intact]

lemma bound_build_grow_of_not_lt {alloc : ℕ → Bool} {junk : junk_t}
    {b : bound_t} {e : ℕ} (h : ¬ b.max_n < e) :
    bound_build_grow alloc junk b e = (b, HSTART) := by
  unfold bound_build_grow
  rw [if_neg h]

lemma bound_build_grow_fail {alloc : ℕ → Bool} {junk : junk_t}
    {b br : bound_t} {e : ℕ} (h : b.max_n < e)
    (hre : reallocate_bound alloc junk b e = (br, false)) :
    bound_build_grow alloc junk b e = (br, HSTART) := by
  unfold bound_build_grow
  rw [if_pos h, hre]

lemma bound_build_grow_success {alloc : ℕ → Bool} {junk : junk_t}
    {b br : bound_t} {e : ℕ} (h : b.max_n < e)
    (hre : reallocate_bound alloc junk b e = (br, true)) :
    bound_build_grow alloc junk b e =
      ({ br with
          max_n := e,
          ak_table := (br.ak_table).map (bound_init_aks br.confidence e) },
       b.max_n + 1) := by
  unfold bound_build_grow
  rw [if_pos h, hre]


/-- bound_build preserves the state invariant: run on an intact bound with
correct dummy entries and significance levels (and, when the call grows
the table, correct failure probabilities and monotone stopping points), a
completed build yields a bound satisfying the full invariant, with the
confidence unchanged. -/
lemma bound_build_inv {F : ℕ} {alloc : ℕ → Bool} {junk : junk_t}
    {b b' : bound_t} {e : ℕ}
    (h2 : 2 ≤ b.max_n) (hint : bound_intact b = true)
    (hnk01 : nk01_spec b) (hak : ak_spec b)
    (hpre : b.max_n < e → pr_spec b ∧
      (0 < b.confidence → b.confidence < 1 → nk_mono_spec b))
    (hE : bound_build F alloc junk b e = some b') :
    bound_inv b' ∧ b'.confidence = b.confidence ∧ b'.max_n = max b.max_n e := by
  obtain ⟨⟨f0, hf0⟩, ⟨g0, hg0⟩, ⟨p0, hp0⟩, ⟨v1, v2, hst0⟩⟩ := bound_intact_iff.mp hint
  rcases b with ⟨conf, m, nk, ak, pr, st⟩
  simp only [] at hf0 hg0 hp0 hst0 h2
  subst hf0; subst hg0; subst hp0; subst hst0
  have h2m : 2 ≤ m := h2
  by_cases hge : m < e
  · -- growth path
    obtain ⟨hpr0, hmono0⟩ := hpre hge
    have hfields := reallocate_bound_fields alloc junk
      ⟨conf, m, some f0, some g0, some p0, some ⟨some v1, some v2⟩⟩ e
    have hintact := reallocate_bound_intact alloc junk
      ⟨conf, m, some f0, some g0, some p0, some ⟨some v1, some v2⟩⟩ e
    rcases hre : reallocate_bound alloc junk
      ⟨conf, m, some f0, some g0, some p0, some ⟨some v1, some v2⟩⟩ e with ⟨br, ok⟩
    rw [hre] at hfields hintact
    cases ok with
    | false =>
      simp only [] at hintact hfields
      have hmaxm : br.max_n = m := hfields.1
      simp only [bound_build, bound_build_grow_fail hge hre, HSTART] at hE
      rw [if_pos ⟨by rw [hmaxm]; omega, hintact⟩] at hE
      exact absurd hE (by simp)
    | true =>
      simp only [] at hintact hfields
      obtain ⟨⟨fr, hfr⟩, ⟨gr, hgr⟩, ⟨pr_r, hprr⟩, ⟨w1, w2, hstr⟩⟩ :=
        bound_intact_iff.mp hintact
      obtain ⟨hmax, hconf, hnkD, hakD, hprD⟩ := hfields
      have hfr_pres : ∀ i, i < m + 1 → i < e + 1 → fr i = f0 i := by
        rcases hnkD with hh | hh | ⟨nk2, hh, hp⟩
        · rw [hfr] at hh
          simp only [Option.some.injEq] at hh
          intro i _ _
          rw [hh]
        · rw [hfr] at hh; exact absurd hh (by simp)
        · rw [hfr] at hh
          simp only [Option.some.injEq] at hh
          subst hh
          exact hp f0 rfl
      have hprr_pres : ∀ i, i < m + 1 → i < e + 1 → pr_r i = p0 i := by
        rcases hprD with hh | hh | ⟨pr2, hh, hp⟩
        · rw [hprr] at hh
          simp only [Option.some.injEq] at hh
          intro i _ _
          rw [hh]
        · rw [hprr] at hh; exact absurd hh (by simp)
        · rw [hprr] at hh
          simp only [Option.some.injEq] at hh
          subst hh
          exact hp p0 rfl
      simp only [bound_build, bound_build_grow_success hge hre, HSTART,
        hfr, hgr, hprr, hstr, hconf, Option.map_some', Option.getD_some,
        bound_intact, Option.isSome_some, Bool.and_true, Bool.true_and,
        Bool.and_self, Bool.true_eq_false, and_false, if_false] at hE
      rcases hH : bound_build_hyps F (bound_init_aks conf e gr) e
          (e + 1 - (m + 1)) (m + 1) fr pr_r
          ⟨0, 0, 0, 0, w1, w2⟩ with - | ⟨nk2, pr2, t⟩
      · rw [hH] at hE
        exact absurd hE (by simp)
      · rw [hH] at hE
        simp only [Option.map_some', Option.some.injEq] at hE
        subst hE
        refine ⟨⟨show (2:ℕ) ≤ e by omega, by simp [bound_intact], ?_, ?_, ?_, ?_⟩,
          rfl, show e = max m e by omega⟩
        · intro f hf
          simp only [Option.some.injEq] at hf
          subst hf
          constructor
          · rw [(hyps_frame hH 0 (Or.inl (by omega))).1]
            rw [hfr_pres 0 (by omega) (by omega)]
            exact (hnk01 f0 rfl).1
          · rw [(hyps_frame hH 1 (Or.inl (by omega))).1]
            rw [hfr_pres 1 (by omega) (by omega)]
            exact (hnk01 f0 rfl).2
        · intro g hg
          simp only [Option.some.injEq] at hg
          subst hg
          refine ⟨bound_init_aks_zero0, bound_init_aks_zero1, ?_⟩
          intro h hh2 hhe
          exact bound_init_aks_eq_formula hh2 hhe
        · intro g p hg hp
          simp only [Option.some.injEq] at hg hp
          subst hg; subst hp
          intro h hh2 hhe
          have hhe' : h ≤ e := hhe
          by_cases hhm : h ≤ m
          · rw [(hyps_frame hH h (Or.inl (by omega))).2,
              hprr_pres h (by omega) (by omega),
              bound_init_aks_eq_formula hh2 hhe,
              ← (hak g0 rfl).2.2 h hh2 hhm]
            exact hpr0 g0 p0 rfl rfl h hh2 hhm
          · exact hyps_pr_le hH h (by omega) (by omega)
        · intro hc0 hc1 f hf
          simp only [Option.some.injEq] at hf
          subst hf
          intro h hh3 hhe
          have hhe' : h ≤ e := hhe
          by_cases hhm : h ≤ m
          · rw [(hyps_frame hH h (Or.inl (by omega))).1,
              (hyps_frame hH (h - 1) (Or.inl (by omega))).1,
              hfr_pres h (by omega) (by omega),
              hfr_pres (h - 1) (by omega) (by omega)]
            exact hmono0 hc0 hc1 f0 rfl h hh3 hhm
          · refine hyps_nk_chain (by omega) ?_ hH h (by omega) (by omega) hh3
            intro x hx1 hx2 hx3
            rw [bound_init_aks_eq_formula (by omega) (by omega)]
            exact ak_formula_lt_one hc0 hc1 x
  · -- no growth
    have hgrow_eq : bound_build_grow alloc junk
        ⟨conf, m, some f0, some g0, some p0, some ⟨some v1, some v2⟩⟩ e =
        (⟨conf, m, some f0, some g0, some p0, some ⟨some v1, some v2⟩⟩, HSTART) :=
      bound_build_grow_of_not_lt hge
    simp only [bound_build, hgrow_eq, HSTART,
      Option.getD_some, bound_intact, Option.isSome_some, Bool.and_true,
      Bool.true_and, Bool.and_self, Bool.true_eq_false, and_false,
      if_false] at hE
    rcases hH : bound_build_hyps F g0 m (m + 1 - 2) 2 f0 p0
        ⟨0, 0, 0, 0, v1, v2⟩ with - | ⟨nk2, pr2, t⟩
    · rw [hH] at hE
      exact absurd hE (by simp)
    · rw [hH] at hE
      simp only [Option.map_some', Option.some.injEq] at hE
      subst hE
      refine ⟨⟨h2, by simp [bound_intact], ?_, ?_, ?_, ?_⟩,
        rfl, show m = max m e by omega⟩
      · intro f hf
        simp only [Option.some.injEq] at hf
        subst hf
        constructor
        · rw [(hyps_frame hH 0 (Or.inl (by omega))).1]
          exact (hnk01 f0 rfl).1
        · rw [(hyps_frame hH 1 (Or.inl (by omega))).1]
          exact (hnk01 f0 rfl).2
      · exact hak
      · intro g p hg hp
        simp only [Option.some.injEq] at hg hp
        subst hg; subst hp
        intro h hh2 hhm
        have hhm' : h ≤ m := hhm
        exact hyps_pr_le hH h (by omega) (by omega)
      · intro hc0 hc1 f hf
        simp only [Option.some.injEq] at hf
        subst hf
        intro h hh3 hhm
        have hhm' : h ≤ m := hhm
        refine hyps_nk_chain (by omega) ?_ hH h (by omega) (by omega) hh3
        intro x hx1 hx2 hx3
        rw [(hak g0 rfl).2.2 x (by omega) (show x ≤ m by omega)]
        exact ak_formula_lt_one hc0 hc1 x


/-- Every bound returned by a completed bound_create satisfies the
invariant, carries the per-node confidence computed from the arguments,
and has max_n equal to max_interfaces. -/
lemma bound_create_inv {F : ℕ} {alloc : ℕ → Bool} {jf js : ℕ → ℚ} {g : ℚ}
    {mi mb : ℕ} {b : bound_t}
    (hE : bound_create F alloc jf js g mi mb = some (some b)) :
    bound_inv b ∧ b.confidence = node_confidence g mb ∧ b.max_n = mi := by
  unfold bound_create at hE
  by_cases h0 : alloc 0 = false
  · rw [if_pos h0] at hE; exact absurd hE (by simp)
  rw [if_neg h0] at hE
  by_cases h1 : alloc 1 = false
  · rw [if_pos h1] at hE; exact absurd hE (by simp)
  rw [if_neg h1] at hE
  by_cases hA2 : alloc 2 = false
  · rw [if_pos hA2] at hE; exact absurd hE (by simp)
  rw [if_neg hA2] at hE
  by_cases h3 : alloc 3 = false
  · rw [if_pos h3] at hE; exact absurd hE (by simp)
  rw [if_neg h3] at hE
  by_cases h4 : alloc 4 = false
  · rw [if_pos h4] at hE; exact absurd hE (by simp)
  rw [if_neg h4] at hE
  by_cases h5 : alloc 5 = false
  · rw [if_pos h5] at hE; exact absurd hE (by simp)
  rw [if_neg h5] at hE
  by_cases h6 : alloc 6 = false
  · rw [if_pos h6] at hE; exact absurd hE (by simp)
  rw [if_neg h6] at hE
  by_cases hmi : mi < 2
  · rw [if_pos hmi] at hE; exact absurd hE (by simp)
  rw [if_neg hmi] at hE
  simp only [] at hE
  rcases hB : bound_build F (fun _ => true) junk0
      ⟨node_confidence g mb, mi,
        some (Function.update (Function.update (fun _ => 0) 0 0) 1 0),
        some (bound_init_aks (node_confidence g mb) mi (fun _ => 0)),
        some (fun _ => 0),
        some ⟨some jf, some js⟩⟩ mi with - | b1
  · rw [hB] at hE; exact absurd hE (by simp)
  rw [hB] at hE
  simp only [Option.map_some', Option.some.injEq] at hE
  subst hE
  obtain ⟨hinv, hconf, hmax⟩ := bound_build_inv
    (show (2:ℕ) ≤ mi by omega) (by rfl)
    (by
      intro f hf
      simp only [Option.some.injEq] at hf
      subst hf
      constructor <;> simp [Function.update_apply])
    (by
      intro gg hg
      simp only [Option.some.injEq] at hg
      subst hg
      exact ⟨bound_init_aks_zero0, bound_init_aks_zero1,
        fun h hh2 hhm => bound_init_aks_eq_formula hh2 hhm⟩)
    (fun hlt => absurd hlt (lt_irrefl mi)) hB
  have hmax' : b1.max_n = max mi mi := hmax
  exact ⟨hinv, hconf, by omega⟩

/-- Every reachable bound satisfies the invariant. -/
lemma reachable_inv {b : bound_t} (h : reachable b) : bound_inv b := by
  induction h with
  | create _ _ _ _ _ _ _ _ hE => exact (bound_create_inv hE).1
  | build _ _ _ _ _ _ _ hE ih =>
    obtain ⟨hb2, hbint, hbnk01, hbak, hbpr, hbmono⟩ := ih
    exact (bound_build_inv hb2 hbint hbnk01 hbak (fun _ => ⟨hbpr, hbmono⟩) hE).1

lemma the_bound_eq {x : Option (Option bound_t)}
    (h : (x.getD none).isSome = true) : x = some (some (the_bound x)) := by
  rcases x with - | y
  · simp at h
  rcases y with - | b
  · simp at h
  · rfl

lemma rows_none_of_stuck {nk : ℕ → ℕ} {ak pr : ℕ → ℚ} {h : ℕ} (hh : 1 ≤ h) :
    ∀ (n : ℕ) (s : iter_state),
    (∀ k, k < n → ¬ (((row_body nk h)^[k] s).jstart = st_sub h 1 ∧
        ((row_body nk h)^[k] s).cur_state ≤ ak h)) →
    h ≤ ((row_body nk h)^[n] s).jstart → 2 ≤ ((row_body nk h)^[n] s).i →
    ∀ F, bound_build_rows nk ak pr h F s = none := by
  intro n
  induction n with
  | zero =>
    intro s hcont hjs hi F
    simp only [Function.iterate_zero_apply] at hjs hi
    exact rows_stuck hh F hjs hi
  | succ n ih =>
    intro s hcont hjs hi F
    rcases F with - | F
    · exact rows_zero
    have h0 := hcont 0 (by omega)
    simp only [Function.iterate_zero_apply] at h0
    rw [rows_succ_of_cont h0]
    refine ih (row_body nk h s) (fun k hk => ?_) ?_ ?_ F
    · rw [← Function.iterate_succ_apply]
      exact hcont (k + 1) (by omega)
    · rw [← Function.iterate_succ_apply]
      exact hjs
    · rw [← Function.iterate_succ_apply]
      exact hi

lemma bound_build_none_of_rows {F : ℕ} {alloc : ℕ → Bool} {junk : junk_t}
    {b : bound_t} {e c : ℕ}
    (hnk0 : b.nk_table.isSome = true) (hst0 : b.state.isSome = true)
    (hint : bound_intact (bound_build_grow alloc junk b e).1 = true)
    (hc : (bound_build_grow alloc junk b e).1.max_n + 1 -
      (bound_build_grow alloc junk b e).2 = c + 1)
    (hrows : bound_build_rows
        ((bound_build_grow alloc junk b e).1.nk_table.getD (fun _ => 0))
        ((bound_build_grow alloc junk b e).1.ak_table.getD (fun _ => 0))
        ((bound_build_grow alloc junk b e).1.pr_failure.getD (fun _ => 0))
        (bound_build_grow alloc junk b e).2 F
        ⟨1, 0, HSTART, 1,
          (fun j => if j < (bound_build_grow alloc junk b e).1.max_n then 0
            else (((bound_build_grow alloc junk b e).1.state.getD
              ⟨none, none⟩).first.getD (fun _ => 0)) j),
          Function.update (Function.update
            (((bound_build_grow alloc junk b e).1.state.getD
              ⟨none, none⟩).second.getD (fun _ => 0)) 0 0) 1 1⟩ = none) :
    bound_build F alloc junk b e = none := by
  rcases hbk : b.nk_table with - | f
  · rw [hbk] at hnk0; exact absurd hnk0 (by simp)
  rcases hbs : b.state with - | st
  · rw [hbs] at hst0; exact absurd hst0 (by simp)
  unfold bound_build
  rw [hbk, hbs]
  simp only []
  rw [hc, if_neg (by simp [hint]), hyps_succ]
  simp only []
  rw [hrows]

lemma bound_build_none_of_damage {F : ℕ} {alloc : ℕ → Bool} {junk : junk_t}
    {b : bound_t} {e : ℕ}
    (hnk0 : b.nk_table.isSome = true) (hst0 : b.state.isSome = true)
    (hint : bound_intact (bound_build_grow alloc junk b e).1 = false)
    (hcount : 1 ≤ (bound_build_grow alloc junk b e).1.max_n + 1 -
      (bound_build_grow alloc junk b e).2) :
    bound_build F alloc junk b e = none := by
  rcases hbk : b.nk_table with - | f
  · rw [hbk] at hnk0; exact absurd hnk0 (by simp)
  rcases hbs : b.state with - | st
  · rw [hbs] at hst0; exact absurd hst0 (by simp)
  unfold bound_build
  rw [hbk, hbs]
  simp only []
  rw [if_pos ⟨hcount, hint⟩]

lemma create_ex_eval :
    bound_create 12 alloc_ok (fun _ => 0) (fun _ => 0) (1/2) 2 1 =
      some (some bound_ex) :=
  the_bound_eq (by norm_num only [bound_create, bound_build, bound_build_grow, bound_build_hyps,
    bound_build_rows, row_body, bound_build_inner, inner_step, continue_condition,
    calculate, swap, init_state, bound_intact, reallocate_bound, realloc_block,
    bound_init_aks, node_confidence, alloc_ok, junk0, the_bound, HSTART, SIZE_T,
    st_sub, NUM_PROBES, PROBA_HOR, PROBA_VER, Function.update_apply,
    Option.getD_some, Option.getD_none, Option.map_some', Option.map_none',
    Option.isSome_some, Option.isSome_none, if_true, if_false, eq_self_iff_true,
    Bool.true_eq_false, Bool.false_eq_true, and_true, true_and, Bool.and_true,
    Bool.true_and, Bool.and_self, and_false, false_and, bound_ex])

lemma reachable_ex : reachable bound_ex :=
  reachable.create 12 alloc_ok (fun _ => 0) (fun _ => 0) (1/2) 2 1 bound_ex
    create_ex_eval

lemma bound_ex_max : bound_ex.max_n = 2 := by
  norm_num only [bound_create, bound_build, bound_build_grow, bound_build_hyps,
    bound_build_rows, row_body, bound_build_inner, inner_step, continue_condition,
    calculate, swap, init_state, bound_intact, reallocate_bound, realloc_block,
    bound_init_aks, node_confidence, alloc_ok, junk0, the_bound, HSTART, SIZE_T,
    st_sub, NUM_PROBES, PROBA_HOR, PROBA_VER, Function.update_apply,
    Option.getD_some, Option.getD_none, Option.map_some', Option.map_none',
    Option.isSome_some, Option.isSome_none, if_true, if_false, eq_self_iff_true,
    Bool.true_eq_false, Bool.false_eq_true, and_true, true_and, Bool.and_true,
    Bool.true_and, Bool.and_self, and_false, false_and, bound_ex]

lemma bound_ex_conf : bound_ex.confidence = 1/2 := by
  norm_num only [bound_create, bound_build, bound_build_grow, bound_build_hyps,
    bound_build_rows, row_body, bound_build_inner, inner_step, continue_condition,
    calculate, swap, init_state, bound_intact, reallocate_bound, realloc_block,
    bound_init_aks, node_confidence, alloc_ok, junk0, the_bound, HSTART, SIZE_T,
    st_sub, NUM_PROBES, PROBA_HOR, PROBA_VER, Function.update_apply,
    Option.getD_some, Option.getD_none, Option.map_some', Option.map_none',
    Option.isSome_some, Option.isSome_none, if_true, if_false, eq_self_iff_true,
    Bool.true_eq_false, Bool.false_eq_true, and_true, true_and, Bool.and_true,
    Bool.true_and, Bool.and_self, and_false, false_and, bound_ex]

lemma bound_ex_intact : bound_intact bound_ex = true := by
  norm_num only [bound_create, bound_build, bound_build_grow, bound_build_hyps,
    bound_build_rows, row_body, bound_build_inner, inner_step, continue_condition,
    calculate, swap, init_state, bound_intact, reallocate_bound, realloc_block,
    bound_init_aks, node_confidence, alloc_ok, junk0, the_bound, HSTART, SIZE_T,
    st_sub, NUM_PROBES, PROBA_HOR, PROBA_VER, Function.update_apply,
    Option.getD_some, Option.getD_none, Option.map_some', Option.map_none',
    Option.isSome_some, Option.isSome_none, if_true, if_false, eq_self_iff_true,
    Bool.true_eq_false, Bool.false_eq_true, and_true, true_and, Bool.and_true,
    Bool.true_and, Bool.and_self, and_false, false_and, bound_ex]

lemma bound_ex_nk : bound_ex.nk_table =
    some (Function.update (Function.update (Function.update
      (fun _ => 0) 0 0) 1 0) 2 6) := by
  norm_num only [bound_create, bound_build, bound_build_grow, bound_build_hyps,
    bound_build_rows, row_body, bound_build_inner, inner_step, continue_condition,
    calculate, swap, init_state, bound_intact, reallocate_bound, realloc_block,
    bound_init_aks, node_confidence, alloc_ok, junk0, the_bound, HSTART, SIZE_T,
    st_sub, NUM_PROBES, PROBA_HOR, PROBA_VER, Function.update_apply,
    Option.getD_some, Option.getD_none, Option.map_some', Option.map_none',
    Option.isSome_some, Option.isSome_none, if_true, if_false, eq_self_iff_true,
    Bool.true_eq_false, Bool.false_eq_true, and_true, true_and, Bool.and_true,
    Bool.true_and, Bool.and_self, and_false, false_and, bound_ex]

lemma bound_ex_ak : bound_ex.ak_table =
    some (bound_init_aks (1/2) 2 (fun _ => 0)) := by
  norm_num only [bound_create, bound_build, bound_build_grow, bound_build_hyps,
    bound_build_rows, row_body, bound_build_inner, inner_step, continue_condition,
    calculate, swap, init_state, bound_intact, reallocate_bound, realloc_block,
    bound_init_aks, node_confidence, alloc_ok, junk0, the_bound, HSTART, SIZE_T,
    st_sub, NUM_PROBES, PROBA_HOR, PROBA_VER, Function.update_apply,
    Option.getD_some, Option.getD_none, Option.map_some', Option.map_none',
    Option.isSome_some, Option.isSome_none, if_true, if_false, eq_self_iff_true,
    Bool.true_eq_false, Bool.false_eq_true, and_true, true_and, Bool.and_true,
    Bool.true_and, Bool.and_self, and_false, false_and, bound_ex]

lemma bound_ex_pr : bound_ex.pr_failure =
    some (Function.update (fun _ => 0) 2 (1/32)) := by
  norm_num only [bound_create, bound_build, bound_build_grow, bound_build_hyps,
    bound_build_rows, row_body, bound_build_inner, inner_step, continue_condition,
    calculate, swap, init_state, bound_intact, reallocate_bound, realloc_block,
    bound_init_aks, node_confidence, alloc_ok, junk0, the_bound, HSTART, SIZE_T,
    st_sub, NUM_PROBES, PROBA_HOR, PROBA_VER, Function.update_apply,
    Option.getD_some, Option.getD_none, Option.map_some', Option.map_none',
    Option.isSome_some, Option.isSome_none, if_true, if_false, eq_self_iff_true,
    Bool.true_eq_false, Bool.false_eq_true, and_true, true_and, Bool.and_true,
    Bool.true_and, Bool.and_self, and_false, false_and, bound_ex]

lemma bound_ex_state : bound_ex.state =
    some ⟨some (Function.update (Function.update (Function.update
        (fun j => if j < 2 then 0 else 0) 1 (1/2)) 1 (1/8)) 1 (1/32)),
      some (Function.update (Function.update (Function.update (Function.update
        (fun _ => 0) 0 0) 1 1) 1 (1/4)) 1 (1/16))⟩ := by
  norm_num only [bound_create, bound_build, bound_build_grow, bound_build_hyps,
    bound_build_rows, row_body, bound_build_inner, inner_step, continue_condition,
    calculate, swap, init_state, bound_intact, reallocate_bound, realloc_block,
    bound_init_aks, node_confidence, alloc_ok, junk0, the_bound, HSTART, SIZE_T,
    st_sub, NUM_PROBES, PROBA_HOR, PROBA_VER, Function.update_apply,
    Option.getD_some, Option.getD_none, Option.map_some', Option.map_none',
    Option.isSome_some, Option.isSome_none, if_true, if_false, eq_self_iff_true,
    Bool.true_eq_false, Bool.false_eq_true, and_true, true_and, Bool.and_true,
    Bool.true_and, Bool.and_self, and_false, false_and, bound_ex]

lemma grow_ex_noop :
    bound_build_grow alloc_ok junk0 bound_ex 2 = (bound_ex, HSTART) :=
  bound_build_grow_of_not_lt (by rw [bound_ex_max]; omega)

set_option maxHeartbeats 1000000 in
lemma build_ex_rebuild_none (F : ℕ) :
    bound_build F alloc_ok junk0 bound_ex 2 = none := by
  refine bound_build_none_of_rows (c := 0)
    (by rw [bound_ex_nk]; rfl) (by rw [bound_ex_state]; rfl)
    (by rw [grow_ex_noop]; exact bound_ex_intact)
    (by rw [grow_ex_noop]; show bound_ex.max_n + 1 - HSTART = 0 + 1
        rw [bound_ex_max]; rfl) ?_
  simp only [grow_ex_noop, bound_ex_nk, bound_ex_ak, bound_ex_pr, bound_ex_state,
    bound_ex_max, Option.getD_some, HSTART]
  refine rows_none_of_stuck (by omega) 6 _ ?_ ?_ ?_ F
  · intro k hk
    interval_cases k <;> norm_num only [row_body, bound_build_inner, inner_step, continue_condition, calculate,
    swap, st_sub, SIZE_T, HSTART, NUM_PROBES, PROBA_HOR, PROBA_VER, bound_init_aks,
    Function.update_apply, Function.iterate_succ_apply, Function.iterate_zero_apply,
    if_true, if_false, eq_self_iff_true, true_and, and_true, false_and, and_false,
    not_false_iff]
  · norm_num only [row_body, bound_build_inner, inner_step, continue_condition, calculate,
    swap, st_sub, SIZE_T, HSTART, NUM_PROBES, PROBA_HOR, PROBA_VER, bound_init_aks,
    Function.update_apply, Function.iterate_succ_apply, Function.iterate_zero_apply,
    if_true, if_false, eq_self_iff_true, true_and, and_true, false_and, and_false,
    not_false_iff]
  · norm_num only [row_body, bound_build_inner, inner_step, continue_condition, calculate,
    swap, st_sub, SIZE_T, HSTART, NUM_PROBES, PROBA_HOR, PROBA_VER, bound_init_aks,
    Function.update_apply, Function.iterate_succ_apply, Function.iterate_zero_apply,
    if_true, if_false, eq_self_iff_true, true_and, and_true, false_and, and_false,
    not_false_iff]

lemma grow5_eval :
    bound_build_grow alloc_ok junk3 bound_ex 3 =
    ({ confidence := 1/2, max_n := 3,
        nk_table := some (fun i => if i < 3 then
          if i = 2 then 6 else if i = 1 then 0 else if i = 0 then 0 else 0 else 3),
        ak_table := some (bound_init_aks (1/2) 3 (fun i =>
          if i < 3 then
            if i = 0 then 0
            else if i = 1 then 0
            else if i = 2 then 1/20
            else if i < 3 then 1/20 * (9/10) ^ (i - 2) else 0
          else 0)),
        pr_failure := some (fun i => if i < 3 then
          if i = 2 then 1/32 else 0 else 0),
        state := some ⟨
          some (fun i => if i < 2 then
            if i = 1 then 1/32 else if i = 1 then 1/8 else if i = 1 then 1/2
            else if i < 2 then 0 else 0 else 0),
          some (fun i => if i < 2 then
            if i = 1 then 1/16 else if i = 1 then 1/4 else if i = 1 then 1
            else if i = 0 then 0 else 0 else 0)⟩ }, 3) := by
  norm_num only [junk3, inf_eq_min, Nat.min_def, bound_create, bound_build, bound_build_grow,
    bound_build_hyps,
    bound_build_rows, row_body, bound_build_inner, inner_step, continue_condition,
    calculate, swap, init_state, bound_intact, reallocate_bound, realloc_block,
    bound_init_aks, node_confidence, alloc_ok, junk0, the_bound, HSTART, SIZE_T,
    st_sub, NUM_PROBES, PROBA_HOR, PROBA_VER, Function.update_apply,
    Option.getD_some, Option.getD_none, Option.map_some', Option.map_none',
    Option.isSome_some, Option.isSome_none, if_true, if_false, eq_self_iff_true,
    Bool.true_eq_false, Bool.false_eq_true, and_true, true_and, Bool.and_true,
    Bool.true_and, Bool.and_self, and_false, false_and, bound_ex]

set_option maxHeartbeats 1000000 in
lemma build_ex5_none (F : ℕ) :
    bound_build F alloc_ok junk3 bound_ex 3 = none := by
  refine bound_build_none_of_rows (c := 0)
    (by rw [bound_ex_nk]; rfl) (by rw [bound_ex_state]; rfl)
    (by rw [grow5_eval]; rfl)
    (by rw [grow5_eval]; rfl) ?_
  simp only [grow5_eval, Option.getD_some]
  refine rows_none_of_stuck (by omega) 2 _ ?_ ?_ ?_ F
  · intro k hk
    interval_cases k <;> norm_num only [row_body, bound_build_inner, inner_step, continue_condition, calculate,
    swap, st_sub, SIZE_T, HSTART, NUM_PROBES, PROBA_HOR, PROBA_VER, bound_init_aks,
    Function.update_apply, Function.iterate_succ_apply, Function.iterate_zero_apply,
    if_true, if_false, eq_self_iff_true, true_and, and_true, false_and, and_false,
    not_false_iff]
  · norm_num only [row_body, bound_build_inner, inner_step, continue_condition, calculate,
    swap, st_sub, SIZE_T, HSTART, NUM_PROBES, PROBA_HOR, PROBA_VER, bound_init_aks,
    Function.update_apply, Function.iterate_succ_apply, Function.iterate_zero_apply,
    if_true, if_false, eq_self_iff_true, true_and, and_true, false_and, and_false,
    not_false_iff]
  · norm_num only [row_body, bound_build_inner, inner_step, continue_condition, calculate,
    swap, st_sub, SIZE_T, HSTART, NUM_PROBES, PROBA_HOR, PROBA_VER, bound_init_aks,
    Function.update_apply, Function.iterate_succ_apply, Function.iterate_zero_apply,
    if_true, if_false, eq_self_iff_true, true_and, and_true, false_and, and_false,
    not_false_iff]

lemma create_ex3_eval :
    bound_create 30 alloc_ok (fun _ => 0) (fun _ => 0) (1/2) 3 1 =
      some (some bound_ex3) :=
  the_bound_eq (by norm_num only [inf_eq_min, Nat.min_def, bound_create, bound_build, bound_build_grow,
    bound_build_hyps,
    bound_build_rows, row_body, bound_build_inner, inner_step, continue_condition,
    calculate, swap, init_state, bound_intact, reallocate_bound, realloc_block,
    bound_init_aks, node_confidence, alloc_ok, junk0, the_bound, HSTART, SIZE_T,
    st_sub, NUM_PROBES, PROBA_HOR, PROBA_VER, Function.update_apply,
    Option.getD_some, Option.getD_none, Option.map_some', Option.map_none',
    Option.isSome_some, Option.isSome_none, if_true, if_false, eq_self_iff_true,
    Bool.true_eq_false, Bool.false_eq_true, and_true, true_and, Bool.and_true,
    Bool.true_and, Bool.and_self, and_false, false_and, bound_ex])

lemma reachable_ex3 : reachable bound_ex3 :=
  reachable.create 30 alloc_ok (fun _ => 0) (fun _ => 0) (1/2) 3 1 bound_ex3
    create_ex3_eval

lemma bound_ex3_max : bound_ex3.max_n = 3 := by
  norm_num only [bound_ex3, inf_eq_min, Nat.min_def, bound_create, bound_build, bound_build_grow,
    bound_build_hyps,
    bound_build_rows, row_body, bound_build_inner, inner_step, continue_condition,
    calculate, swap, init_state, bound_intact, reallocate_bound, realloc_block,
    bound_init_aks, node_confidence, alloc_ok, junk0, the_bound, HSTART, SIZE_T,
    st_sub, NUM_PROBES, PROBA_HOR, PROBA_VER, Function.update_apply,
    Option.getD_some, Option.getD_none, Option.map_some', Option.map_none',
    Option.isSome_some, Option.isSome_none, if_true, if_false, eq_self_iff_true,
    Bool.true_eq_false, Bool.false_eq_true, and_true, true_and, Bool.and_true,
    Bool.true_and, Bool.and_self, and_false, false_and, bound_ex]

lemma bound_ex3_conf : bound_ex3.confidence = 1/2 := by
  norm_num only [bound_ex3, inf_eq_min, Nat.min_def, bound_create, bound_build, bound_build_grow,
    bound_build_hyps,
    bound_build_rows, row_body, bound_build_inner, inner_step, continue_condition,
    calculate, swap, init_state, bound_intact, reallocate_bound, realloc_block,
    bound_init_aks, node_confidence, alloc_ok, junk0, the_bound, HSTART, SIZE_T,
    st_sub, NUM_PROBES, PROBA_HOR, PROBA_VER, Function.update_apply,
    Option.getD_some, Option.getD_none, Option.map_some', Option.map_none',
    Option.isSome_some, Option.isSome_none, if_true, if_false, eq_self_iff_true,
    Bool.true_eq_false, Bool.false_eq_true, and_true, true_and, Bool.and_true,
    Bool.true_and, Bool.and_self, and_false, false_and, bound_ex]

lemma bound_ex3_nk2 : bound_get_nk (some bound_ex3) 2 = 6 := by
  norm_num only [bound_get_nk, bound_ex3, inf_eq_min, Nat.min_def, bound_create, bound_build, bound_build_grow,
    bound_build_hyps,
    bound_build_rows, row_body, bound_build_inner, inner_step, continue_condition,
    calculate, swap, init_state, bound_intact, reallocate_bound, realloc_block,
    bound_init_aks, node_confidence, alloc_ok, junk0, the_bound, HSTART, SIZE_T,
    st_sub, NUM_PROBES, PROBA_HOR, PROBA_VER, Function.update_apply,
    Option.getD_some, Option.getD_none, Option.map_some', Option.map_none',
    Option.isSome_some, Option.isSome_none, if_true, if_false, eq_self_iff_true,
    Bool.true_eq_false, Bool.false_eq_true, and_true, true_and, Bool.and_true,
    Bool.true_and, Bool.and_self, and_false, false_and, bound_ex]

lemma bound_ex3_nk3 : bound_get_nk (some bound_ex3) 3 = 11 := by
  norm_num only [bound_get_nk, bound_ex3, inf_eq_min, Nat.min_def, bound_create, bound_build, bound_build_grow,
    bound_build_hyps,
    bound_build_rows, row_body, bound_build_inner, inner_step, continue_condition,
    calculate, swap, init_state, bound_intact, reallocate_bound, realloc_block,
    bound_init_aks, node_confidence, alloc_ok, junk0, the_bound, HSTART, SIZE_T,
    st_sub, NUM_PROBES, PROBA_HOR, PROBA_VER, Function.update_apply,
    Option.getD_some, Option.getD_none, Option.map_some', Option.map_none',
    Option.isSome_some, Option.isSome_none, if_true, if_false, eq_self_iff_true,
    Bool.true_eq_false, Bool.false_eq_true, and_true, true_and, Bool.and_true,
    Bool.true_and, Bool.and_self, and_false, false_and, bound_ex]

lemma realloc_fail_flag :
    (reallocate_bound alloc_fail_nk junk0 bound_ex 3).2 = false := by
  norm_num only [alloc_fail_nk, inf_eq_min, Nat.min_def, bound_create, bound_build, bound_build_grow,
    bound_build_hyps,
    bound_build_rows, row_body, bound_build_inner, inner_step, continue_condition,
    calculate, swap, init_state, bound_intact, reallocate_bound, realloc_block,
    bound_init_aks, node_confidence, alloc_ok, junk0, the_bound, HSTART, SIZE_T,
    st_sub, NUM_PROBES, PROBA_HOR, PROBA_VER, Function.update_apply,
    Option.getD_some, Option.getD_none, Option.map_some', Option.map_none',
    Option.isSome_some, Option.isSome_none, if_true, if_false, eq_self_iff_true,
    Bool.true_eq_false, Bool.false_eq_true, and_true, true_and, Bool.and_true,
    Bool.true_and, Bool.and_self, and_false, false_and, bound_ex]

lemma realloc_fail_nk_null :
    (reallocate_bound alloc_fail_nk junk0 bound_ex 3).1.nk_table = none := by
  norm_num only [alloc_fail_nk, inf_eq_min, Nat.min_def, bound_create, bound_build, bound_build_grow,
    bound_build_hyps,
    bound_build_rows, row_body, bound_build_inner, inner_step, continue_condition,
    calculate, swap, init_state, bound_intact, reallocate_bound, realloc_block,
    bound_init_aks, node_confidence, alloc_ok, junk0, the_bound, HSTART, SIZE_T,
    st_sub, NUM_PROBES, PROBA_HOR, PROBA_VER, Function.update_apply,
    Option.getD_some, Option.getD_none, Option.map_some', Option.map_none',
    Option.isSome_some, Option.isSome_none, if_true, if_false, eq_self_iff_true,
    Bool.true_eq_false, Bool.false_eq_true, and_true, true_and, Bool.and_true,
    Bool.true_and, Bool.and_self, and_false, false_and, bound_ex]

lemma build_ex_growfail_none (F : ℕ) :
    bound_build F alloc_fail_nk junk0 bound_ex 3 = none := by
  refine bound_build_none_of_damage
    (by rw [bound_ex_nk]; rfl) (by rw [bound_ex_state]; rfl) ?_ ?_
  · norm_num only [alloc_fail_nk, inf_eq_min, Nat.min_def, bound_create, bound_build, bound_build_grow,
    bound_build_hyps,
    bound_build_rows, row_body, bound_build_inner, inner_step, continue_condition,
    calculate, swap, init_state, bound_intact, reallocate_bound, realloc_block,
    bound_init_aks, node_confidence, alloc_ok, junk0, the_bound, HSTART, SIZE_T,
    st_sub, NUM_PROBES, PROBA_HOR, PROBA_VER, Function.update_apply,
    Option.getD_some, Option.getD_none, Option.map_some', Option.map_none',
    Option.isSome_some, Option.isSome_none, if_true, if_false, eq_self_iff_true,
    Bool.true_eq_false, Bool.false_eq_true, and_true, true_and, Bool.and_true,
    Bool.true_and, Bool.and_self, and_false, false_and, bound_ex]
  · norm_num only [alloc_fail_nk, inf_eq_min, Nat.min_def, bound_create, bound_build, bound_build_grow,
    bound_build_hyps,
    bound_build_rows, row_body, bound_build_inner, inner_step, continue_condition,
    calculate, swap, init_state, bound_intact, reallocate_bound, realloc_block,
    bound_init_aks, node_confidence, alloc_ok, junk0, the_bound, HSTART, SIZE_T,
    st_sub, NUM_PROBES, PROBA_HOR, PROBA_VER, Function.update_apply,
    Option.getD_some, Option.getD_none, Option.map_some', Option.map_none',
    Option.isSome_some, Option.isSome_none, if_true, if_false, eq_self_iff_true,
    Bool.true_eq_false, Bool.false_eq_true, and_true, true_and, Bool.and_true,
    Bool.true_and, Bool.and_self, and_false, false_and, bound_ex]

/-! The claims. -/

/-- C1: the specification states that bound_build with end at most max_n is
a terminating no-op.  In the code, the absorption check of the row loop
compares against the entry the current hypothesis itself recorded in the
previous build, so jstart is raised to the hypothesis index and the
stopping test (which requires jstart = hypothesis - 1) can never fire
again: rebuilding a freshly created table with end = max_n = 2 fails to
terminate for every fuel bound. -/
theorem C1_rebuild_within_range_hangs :
    bound_create 12 alloc_ok (fun _ => 0) (fun _ => 0) (1/2) 2 1 =
      some (some bound_ex) ∧
    bound_ex.max_n = 2 ∧
    ∀ F : ℕ, bound_build F alloc_ok junk0 bound_ex 2 = none :=
  ⟨create_ex_eval, bound_ex_max, build_ex_rebuild_none⟩

/-- C2: the specification requires growth to be atomic, leaving the table
in its prior fully valid state when a reallocation fails.  In the code,
each realloc result is assigned straight back into the struct field, so
when the nk_table reallocation fails the bound is left holding a NULL
nk_table (reallocate_bound reports false), and the subsequent hypothesis
loop of bound_build dereferences the NULL buffer: no defined final state
exists for any fuel bound. -/
theorem C2_grow_failure_not_atomic :
    bound_create 12 alloc_ok (fun _ => 0) (fun _ => 0) (1/2) 2 1 =
      some (some bound_ex) ∧
    bound_ex.nk_table.isSome = true ∧
    (reallocate_bound alloc_fail_nk junk0 bound_ex 3).2 = false ∧
    (reallocate_bound alloc_fail_nk junk0 bound_ex 3).1.nk_table = none ∧
    ∀ F : ℕ, bound_build F alloc_fail_nk junk0 bound_ex 3 = none :=
  ⟨create_ex_eval, by rw [bound_ex_nk]; rfl, realloc_fail_flag,
    realloc_fail_nk_null, build_ex_growfail_none⟩

/-- C3: on every reachable bound (anything bound_create returns, closed
under completed bound_build calls) the recorded failure probability of
every populated hypothesis is at most its significance level, exactly as
the stopping test of continue_condition enforces. -/
theorem C3_stopping_correct {b : bound_t} (hr : reachable b) :
    b.ak_table.isSome = true ∧ b.pr_failure.isSome = true ∧
    ∀ h, 2 ≤ h → h ≤ b.max_n →
      (b.pr_failure.getD (fun _ => 0)) h ≤ (b.ak_table.getD (fun _ => 0)) h := by
  obtain ⟨h2, hint, hnk01, hak, hpr, hmono⟩ := reachable_inv hr
  obtain ⟨⟨f, hf⟩, ⟨g, hg⟩, ⟨p, hp⟩, -⟩ := bound_intact_iff.mp hint
  refine ⟨by rw [hg]; rfl, by rw [hp]; rfl, ?_⟩
  intro h hh2 hhm
  rw [hp, hg]
  simp only [Option.getD_some]
  exact hpr g p hg hp h hh2 hhm

/-- C3 witness: the recorded failure probability of hypothesis 2 of the
example table (1/32) is at most its significance level (1/20). -/
theorem C3_witness :
    (bound_ex.pr_failure.getD (fun _ => 0)) 2 ≤
      (bound_ex.ak_table.getD (fun _ => 0)) 2 :=
  (C3_stopping_correct reachable_ex).2.2 2 (le_refl 2) (by rw [bound_ex_max])

/-- C4 counterexample: the claim asserts monotonicity after any successful
construction.  With the degenerate graph confidence 12 (the claim states
no restriction on the confidence), bound_create completes and returns a
table with nk_table[2] = 1 > nk_table[3] = 0. -/
theorem C4_counterexample :
    ∃ b : bound_t,
      bound_create 8 alloc_ok (fun _ => 0) (fun _ => 0) 12 3 1 =
        some (some b) ∧
      2 < b.max_n ∧
      bound_get_nk (some b) 3 < bound_get_nk (some b) 2 := by
  refine ⟨_, the_bound_eq (by norm_num only [inf_eq_min, Nat.min_def, bound_create, bound_build, bound_build_grow,
    bound_build_hyps,
    bound_build_rows, row_body, bound_build_inner, inner_step, continue_condition,
    calculate, swap, init_state, bound_intact, reallocate_bound, realloc_block,
    bound_init_aks, node_confidence, alloc_ok, junk0, the_bound, HSTART, SIZE_T,
    st_sub, NUM_PROBES, PROBA_HOR, PROBA_VER, Function.update_apply,
    Option.getD_some, Option.getD_none, Option.map_some', Option.map_none',
    Option.isSome_some, Option.isSome_none, if_true, if_false, eq_self_iff_true,
    Bool.true_eq_false, Bool.false_eq_true, and_true, true_and, Bool.and_true,
    Bool.true_and, Bool.and_self, and_false, false_and, bound_ex]), ?_, ?_⟩
  · norm_num only [the_bound, inf_eq_min, Nat.min_def, bound_create, bound_build, bound_build_grow,
    bound_build_hyps,
    bound_build_rows, row_body, bound_build_inner, inner_step, continue_condition,
    calculate, swap, init_state, bound_intact, reallocate_bound, realloc_block,
    bound_init_aks, node_confidence, alloc_ok, junk0, the_bound, HSTART, SIZE_T,
    st_sub, NUM_PROBES, PROBA_HOR, PROBA_VER, Function.update_apply,
    Option.getD_some, Option.getD_none, Option.map_some', Option.map_none',
    Option.isSome_some, Option.isSome_none, if_true, if_false, eq_self_iff_true,
    Bool.true_eq_false, Bool.false_eq_true, and_true, true_and, Bool.and_true,
    Bool.true_and, Bool.and_self, and_false, false_and, bound_ex]
  · norm_num only [bound_get_nk, the_bound, inf_eq_min, Nat.min_def, bound_create, bound_build, bound_build_grow,
    bound_build_hyps,
    bound_build_rows, row_body, bound_build_inner, inner_step, continue_condition,
    calculate, swap, init_state, bound_intact, reallocate_bound, realloc_block,
    bound_init_aks, node_confidence, alloc_ok, junk0, the_bound, HSTART, SIZE_T,
    st_sub, NUM_PROBES, PROBA_HOR, PROBA_VER, Function.update_apply,
    Option.getD_some, Option.getD_none, Option.map_some', Option.map_none',
    Option.isSome_some, Option.isSome_none, if_true, if_false, eq_self_iff_true,
    Bool.true_eq_false, Bool.false_eq_true, and_true, true_and, Bool.and_true,
    Bool.true_and, Bool.and_self, and_false, false_and, bound_ex]

/-- C4 (amended): when the per-node confidence lies in the open unit
interval — the regime every meaningful parameter choice produces — the
stopping-point table of every reachable bound is monotone in the
hypothesis over the populated range. -/
theorem C4_nk_monotone {b : bound_t} (hr : reachable b)
    (hc0 : 0 < b.confidence) (hc1 : b.confidence < 1) :
    ∀ h1 h2, 2 ≤ h1 → h1 ≤ h2 → h2 ≤ b.max_n →
      bound_get_nk (some b) h1 ≤ bound_get_nk (some b) h2 := by
  obtain ⟨hm2, hint, hnk01, hak, hpr, hmono⟩ := reachable_inv hr
  obtain ⟨⟨f, hf⟩, -, -, -⟩ := bound_intact_iff.mp hint
  have hmono' := hmono hc0 hc1 f hf
  intro h1 h2 hh1 hle hh2
  have hget : ∀ k, k ≤ b.max_n → bound_get_nk (some b) k = f k := by
    intro k hk
    simp only [bound_get_nk, hf]
    rw [if_pos hk]
  rw [hget h1 (by omega), hget h2 hh2]
  have key : ∀ d, h1 + d ≤ b.max_n → f h1 ≤ f (h1 + d) := by
    intro d
    induction d with
    | zero => intro _; exact le_refl _
    | succ n ih =>
      intro hbd
      have hstep := hmono' (h1 + n + 1) (by omega) (by omega)
      have heq : h1 + n + 1 - 1 = h1 + n := by omega
      rw [heq] at hstep
      have hn := ih (by omega)
      show f h1 ≤ f (h1 + n + 1)
      omega
  obtain ⟨d, rfl⟩ : ∃ d, h2 = h1 + d := ⟨h2 - h1, by omega⟩
  exact key d hh2

/-- C4 witness: the second example table is reachable with confidence 1/2
in (0,1), and its stopping points at hypotheses 2 and 3 are ordered. -/
theorem C4_witness :
    0 < bound_ex3.confidence ∧ bound_ex3.confidence < 1 ∧
    bound_get_nk (some bound_ex3) 2 ≤ bound_get_nk (some bound_ex3) 3 :=
  ⟨by rw [bound_ex3_conf]; norm_num, by rw [bound_ex3_conf]; norm_num,
    C4_nk_monotone reachable_ex3 (by rw [bound_ex3_conf]; norm_num)
      (by rw [bound_ex3_conf]; norm_num) 2 3 (by omega) (by omega)
      (by rw [bound_ex3_max])⟩

/-- C5: building directly to hypothesis 3 completes (stopping point 11 at
hypothesis 3), but building to 2 first and then growing to 3 reads the
uninitialized cell nk_table[3] of the freshly reallocated table; with
junk contents 3 in that cell the absorption check fires spuriously,
jstart is raised past the stopping test, and the grown build never
terminates — incremental and batch construction cannot agree. -/
theorem C5_incremental_vs_batch_diverges :
    bound_create 30 alloc_ok (fun _ => 0) (fun _ => 0) (1/2) 3 1 =
      some (some bound_ex3) ∧
    bound_get_nk (some bound_ex3) 3 = 11 ∧
    bound_create 12 alloc_ok (fun _ => 0) (fun _ => 0) (1/2) 2 1 =
      some (some bound_ex) ∧
    ∀ F : ℕ, bound_build F alloc_ok junk3 bound_ex 3 = none :=
  ⟨create_ex3_eval, bound_ex3_nk3, create_ex_eval, build_ex5_none⟩

/-- C6: the significance-level table after precomputation: zeros at the
dummy indices 0 and 1, (1 - 0.9) * confidence at index 2, the geometric
closed form on 3..max_n, the ratio-0.9 recurrence, and strict decrease
from index 2 on for positive confidence. -/
theorem C6_ak_geometric (c : ℚ) (m : ℕ) (old : ℕ → ℚ) :
    bound_init_aks c m old 0 = 0 ∧
    bound_init_aks c m old 1 = 0 ∧
    bound_init_aks c m old 2 = (1 - 9/10) * c ∧
    (∀ h, 3 ≤ h → h ≤ m →
      bound_init_aks c m old h = ((1 - 9/10) * c) * (9/10) ^ (h - 2)) ∧
    (∀ h, 3 ≤ h → h ≤ m →
      bound_init_aks c m old h = bound_init_aks c m old (h - 1) * (9/10)) ∧
    (0 < c → ∀ h, 2 ≤ h → h < m →
      bound_init_aks c m old (h + 1) < bound_init_aks c m old h) := by
  refine ⟨bound_init_aks_zero0, bound_init_aks_zero1, rfl, ?_, ?_, ?_⟩
  · intro h h3 hm
    rw [bound_init_aks_eq_formula (by omega) hm]
    rfl
  · intro h h3 hm
    rw [bound_init_aks_eq_formula (by omega) hm,
      bound_init_aks_eq_formula (by omega) (by omega)]
    unfold ak_formula
    have he : h - 2 = (h - 1 - 2) + 1 := by omega
    rw [he, pow_succ]
    ring
  · intro hc h h2 hm
    rw [bound_init_aks_eq_formula h2 (by omega),
      bound_init_aks_eq_formula (by omega) (by omega)]
    unfold ak_formula
    have he : h + 1 - 2 = (h - 2) + 1 := by omega
    rw [he, pow_succ]
    have hp : (0:ℚ) < ((1 - 9/10) * c) * (9/10) ^ (h - 2) := by positivity
    nlinarith [hp]

/-- C6 witness: concrete values at confidence 1/2 and max_n 3. -/
theorem C6_witness :
    bound_init_aks (1/2) 3 (fun _ => 0) 3 = ((1 - 9/10) * (1/2)) * (9/10) ∧
    bound_init_aks (1/2) 3 (fun _ => 0) 3 <
      bound_init_aks (1/2) 3 (fun _ => 0) 2 := by
  constructor
  · have hv := (C6_ak_geometric (1/2) 3 (fun _ => 0)).2.2.2.1 3 (by omega)
      (by omega)
    rw [hv]
    norm_num
  · exact (C6_ak_geometric (1/2) 3 (fun _ => 0)).2.2.2.2.2 (by norm_num) 2
      (by omega) (by omega)

/-- C7 counterexample: the claim asserts the current vector is zero at
every index other than 1, but init_state only writes indices 0 and 1 of
the second vector; any stale contents at indices 2 and above survive. -/
theorem C7_counterexample :
    ¬ (∀ (first second : ℕ → ℚ) (m j : ℕ), j ≠ 1 →
        (init_state m first second).2.2 j = 0) := by
  intro hall
  have h := hall (fun _ => 0) (fun _ => 1/2) 3 2 (by omega)
  norm_num only [init_state, Function.update_apply, if_true, if_false,
    eq_self_iff_true] at h

/-- C7 (amended): init_state returns probability 1, zeroes the prior
vector on the populated range (leaving it untouched beyond max_n), and
writes only cells 0 and 1 of the current vector (0 and 1 respectively),
leaving every cell from index 2 on unchanged. -/
theorem C7_init_state_spec (m : ℕ) (first second : ℕ → ℚ) :
    (init_state m first second).1 = 1 ∧
    (∀ j, j < m → (init_state m first second).2.1 j = 0) ∧
    (∀ j, m ≤ j → (init_state m first second).2.1 j = first j) ∧
    (init_state m first second).2.2 0 = 0 ∧
    (init_state m first second).2.2 1 = 1 ∧
    (∀ j, 2 ≤ j → (init_state m first second).2.2 j = second j) := by
  refine ⟨rfl, ?_, ?_, ?_, ?_, ?_⟩
  · intro j hj
    simp only [init_state]
    rw [if_pos hj]
  · intro j hj
    simp only [init_state]
    rw [if_neg (by omega)]
  · simp only [init_state, Function.update_apply]
    norm_num
  · simp only [init_state, Function.update_apply]
    norm_num
  · intro j hj
    simp only [init_state, Function.update_apply]
    rw [if_neg (by omega), if_neg (by omega)]

/-- C7 witness: concrete vectors showing the written cells and a preserved
stale cell at index 2. -/
theorem C7_witness :
    (init_state 2 (fun _ => 5) (fun _ => 7)).2.2 1 = 1 ∧
    (init_state 2 (fun _ => 5) (fun _ => 7)).2.2 2 = 7 ∧
    (init_state 2 (fun _ => 5) (fun _ => 7)).2.1 1 = 0 :=
  ⟨(C7_init_state_spec 2 (fun _ => 5) (fun _ => 7)).2.2.2.2.1,
    (C7_init_state_spec 2 (fun _ => 5) (fun _ => 7)).2.2.2.2.2 2 (by omega),
    (C7_init_state_spec 2 (fun _ => 5) (fun _ => 7)).2.1 1 (by omega)⟩

/-- C8 counterexample: the claim asserts bound_create fails whenever
max_branch = 0.  The code performs no such validation: node_confidence
follows the IEEE evaluation (1/0 = infinity, pow of the base below one
gives 0, so the per-node confidence becomes 1) and construction completes
with a non-NULL handle. -/
theorem C8_counterexample :
    ∃ b : bound_t,
      bound_create 20 alloc_ok (fun _ => 0) (fun _ => 0) (1/2) 2 0 =
        some (some b) :=
  ⟨_, the_bound_eq (by norm_num only [inf_eq_min, Nat.min_def, bound_create, bound_build, bound_build_grow,
    bound_build_hyps,
    bound_build_rows, row_body, bound_build_inner, inner_step, continue_condition,
    calculate, swap, init_state, bound_intact, reallocate_bound, realloc_block,
    bound_init_aks, node_confidence, alloc_ok, junk0, the_bound, HSTART, SIZE_T,
    st_sub, NUM_PROBES, PROBA_HOR, PROBA_VER, Function.update_apply,
    Option.getD_some, Option.getD_none, Option.map_some', Option.map_none',
    Option.isSome_some, Option.isSome_none, if_true, if_false, eq_self_iff_true,
    Bool.true_eq_false, Bool.false_eq_true, and_true, true_and, Bool.and_true,
    Bool.true_and, Bool.and_self, and_false, false_and, bound_ex])⟩

/-- C8 (amended): for the table sizes the code supports, a completed
bound_create returns NULL exactly when one of its seven allocations
fails; max_branch is never checked. -/
theorem C8_create_failure_iff (F : ℕ) (alloc : ℕ → Bool) (jf js : ℕ → ℚ)
    (g : ℚ) (mi mb : ℕ) (hmi : 2 ≤ mi) :
    bound_create F alloc jf js g mi mb = some none ↔
      ∃ i, i < 7 ∧ alloc i = false := by
  unfold bound_create
  by_cases h0 : alloc 0 = false
  · rw [if_pos h0]
    exact iff_of_true rfl ⟨0, by omega, h0⟩
  rw [if_neg h0]
  by_cases h1 : alloc 1 = false
  · rw [if_pos h1]
    exact iff_of_true rfl ⟨1, by omega, h1⟩
  rw [if_neg h1]
  by_cases hA2 : alloc 2 = false
  · rw [if_pos hA2]
    exact iff_of_true rfl ⟨2, by omega, hA2⟩
  rw [if_neg hA2]
  by_cases h3 : alloc 3 = false
  · rw [if_pos h3]
    exact iff_of_true rfl ⟨3, by omega, h3⟩
  rw [if_neg h3]
  by_cases h4 : alloc 4 = false
  · rw [if_pos h4]
    exact iff_of_true rfl ⟨4, by omega, h4⟩
  rw [if_neg h4]
  by_cases h5 : alloc 5 = false
  · rw [if_pos h5]
    exact iff_of_true rfl ⟨5, by omega, h5⟩
  rw [if_neg h5]
  by_cases h6 : alloc 6 = false
  · rw [if_pos h6]
    exact iff_of_true rfl ⟨6, by omega, h6⟩
  rw [if_neg h6]
  rw [if_neg (by omega : ¬ mi < 2)]
  refine iff_of_false ?_ ?_
  · intro hE
    simp only [] at hE
    rw [Option.map_eq_some'] at hE
    obtain ⟨a, -, ha⟩ := hE
    exact Option.noConfusion ha
  · rintro ⟨i, hi, hA⟩
    interval_cases i
    · exact absurd hA h0
    · exact absurd hA h1
    · exact absurd hA hA2
    · exact absurd hA h3
    · exact absurd hA h4
    · exact absurd hA h5
    · exact absurd hA h6

/-- C8 witness: with the first allocation failing, bound_create returns
NULL. -/
theorem C8_witness :
    bound_create 0 (fun _ => false) (fun _ => 0) (fun _ => 0) (1/2) 2 5 =
      some none :=
  (C8_create_failure_iff 0 (fun _ => false) (fun _ => 0) (fun _ => 0) (1/2)
    2 5 (by omega)).mpr ⟨0, by omega, rfl⟩

/-- C9: bound_get_nk returns 0 on a NULL handle, 0 when the nk_table
pointer is NULL, the sentinel 0 when the hypothesis exceeds max_n, and
the table entry otherwise; it is a pure function of the handle, so no
field of the table is modified by a lookup. -/
theorem C9_get_nk_spec :
    (∀ k, bound_get_nk none k = 0) ∧
    (∀ (b : bound_t) (k : ℕ), b.nk_table = none →
      bound_get_nk (some b) k = 0) ∧
    (∀ (b : bound_t) (k : ℕ), b.max_n < k → bound_get_nk (some b) k = 0) ∧
    (∀ (b : bound_t) (f : ℕ → ℕ) (k : ℕ), b.nk_table = some f →
      k ≤ b.max_n → bound_get_nk (some b) k = f k) := by
  refine ⟨fun k => rfl, ?_, ?_, ?_⟩
  · intro b k h
    simp only [bound_get_nk, h]
  · intro b k h
    simp only [bound_get_nk]
    rcases hnk : b.nk_table with - | f
    · rfl
    · show (if k ≤ b.max_n then f k else 0) = 0
      rw [if_neg (by omega)]
  · intro b f k hf hk
    simp only [bound_get_nk, hf]
    rw [if_pos hk]

/-- C9 witness: lookups on a NULL handle, beyond max_n, and at a populated
hypothesis of the example table. -/
theorem C9_witness :
    bound_get_nk none 5 = 0 ∧
    bound_get_nk (some bound_ex) 3 = 0 ∧
    bound_get_nk (some bound_ex) 2 = 6 := by
  refine ⟨C9_get_nk_spec.1 5, ?_, ?_⟩
  · exact C9_get_nk_spec.2.2.1 bound_ex 3 (by rw [bound_ex_max]; omega)
  · rw [C9_get_nk_spec.2.2.2 bound_ex _ 2 bound_ex_nk (by rw [bound_ex_max])]
    norm_num [Function.update_apply]

/-- C10: entries 0 and 1 of the stopping-point and significance-level
tables of every reachable bound are 0 (the build loop never writes
hypotheses below 2), and bound_get_nk returns 0 at hypotheses 0 and 1. -/
theorem C10_dummy_entries {b : bound_t} (hr : reachable b) :
    (∀ f, b.nk_table = some f → f 0 = 0 ∧ f 1 = 0) ∧
    (∀ g, b.ak_table = some g → g 0 = 0 ∧ g 1 = 0) ∧
    bound_get_nk (some b) 0 = 0 ∧ bound_get_nk (some b) 1 = 0 := by
  obtain ⟨hm2, hint, hnk01, hak, hpr, hmono⟩ := reachable_inv hr
  obtain ⟨⟨f, hf⟩, ⟨g, hg⟩, -, -⟩ := bound_intact_iff.mp hint
  refine ⟨hnk01, ?_, ?_, ?_⟩
  · intro g2 hg2
    obtain ⟨z0, z1, -⟩ := hak g2 hg2
    exact ⟨z0, z1⟩
  · simp only [bound_get_nk, hf]
    rw [if_pos (by omega)]
    exact (hnk01 f hf).1
  · simp only [bound_get_nk, hf]
    rw [if_pos (by omega)]
    exact (hnk01 f hf).2

/-- C10 witness: the dummy lookups on the example table. -/
theorem C10_witness :
    bound_get_nk (some bound_ex) 0 = 0 ∧
    bound_get_nk (some bound_ex) 1 = 0 :=
  ⟨(C10_dummy_entries reachable_ex).2.2.1,
    (C10_dummy_entries reachable_ex).2.2.2⟩
